import Mathlib

/-!
# `buildah containers`: a verification development

Shallow embedding of `cmd/buildah/containers.go` (`containersCmd` with its two
closures `list` and `imageNameForID`).

Conventions of the embedding

* Go strings are Lean `String`s.  Every string the command handles was loaded
  from a JSON state file, hence is valid UTF-8, and `fmt` counts widths and
  precisions in runes, so a sequence of Unicode characters is the right model.
* Standard output is the `stdout` field of `State`: the concatenation of
  everything `fmt.Printf` has written so far.
* The closures capture `JSONContainers` and `seenImages`; they become fields of
  `State`, threaded explicitly.  Two further fields are instrumentation only:
  `imageCalls` logs every call of `store.Image`, `listed` logs every call of
  `list`.  No branch of the program reads them.
* The collaborators that live outside this file (`validateFlags`, `getStore`,
  `openBuilders`, `store.Containers`, `store.Image`, `buildah.BaseImageFakeName`)
  are parameters, gathered in `Env` and `Store`.
-/

namespace Buildah

/-! ## Errors (`github.com/pkg/errors`) -/

/-- An error value: either a root cause or a cause wrapped with a message, as
built by `errors.Wrapf`. -/
inductive Error where
  | root (msg : String)
  | wrapped (cause : Error) (msg : String)
  deriving DecidableEq, Repr

/-- Function `errors.Wrapf(err, msg)` for a non-nil `err`. -/
def Wrapf (err : Error) (msg : String) : Error := Error.wrapped err msg

/-- Method `Error()`: a wrapped error prints as `msg: cause`. -/
def Error.message : Error → String
  | .root m => m
  | .wrapped c m => m ++ ": " ++ c.message

/-- Function `errors.Cause`: the innermost error. -/
def Error.Cause : Error → Error
  | .root m => .root m
  | .wrapped c _ => c.Cause

/-! ## Data -/

/-- The struct `jsonContainer` (source lines 12-18). -/
structure jsonContainer where
  ID : String
  Builder : Bool
  ImageID : String
  ImageName : String
  ContainerName : String
  deriving DecidableEq, Repr

/-- The fields of `buildah.Builder` that the command reads. -/
structure Builder where
  Container : String
  ContainerID : String
  FromImageID : String
  deriving DecidableEq, Repr

/-- The fields of `storage.Container` that the command reads. -/
structure Container where
  ID : String
  Names : List String
  ImageID : String
  deriving DecidableEq, Repr

/-- The fields of `storage.Image` that the command reads. -/
structure Image where
  Names : List String
  deriving DecidableEq, Repr

/-- The boolean flags of `containersFlags`, as read through `c.Bool`. -/
structure Flags where
  all : Bool
  json : Bool
  noheading : Bool
  notruncate : Bool
  quiet : Bool
  deriving DecidableEq, Repr

/-- The two methods of `storage.Store` that the command calls. -/
structure Store where
  Containers : Except Error (List Container)
  Image : String → Except Error Image

/-- Everything the command receives from outside this file. -/
structure Env where
  BaseImageFakeName : String
  validateFlags : Flags → Option Error
  getStore : Flags → Except Error Store
  openBuilders : Store → Except Error (List Builder)

/-- A Go `map[string]string` as an association list with unique keys. -/
abbrev StrMap := List (String × String)

/-- Map read `m[k]` in its two-result form. -/
def StrMap.get (m : StrMap) (k : String) : Option String := m.lookup k

/-- Map write `m[k] = v`. -/
def StrMap.set (m : StrMap) (k v : String) : StrMap :=
  (k, v) :: m.filter (fun e => e.1 != k)

/-- The mutable state of one run of `containersCmd`. -/
structure State where
  stdout : String
  JSONContainers : List jsonContainer
  seenImages : StrMap
  imageCalls : List String
  listed : List jsonContainer
  deriving DecidableEq, Repr

/-- The state at line 95, before anything has run. -/
def State.init : State :=
  { stdout := "", JSONContainers := [], seenImages := [], imageCalls := [], listed := [] }

/-! ## `fmt.Printf` verbs -/

/-- The verb `%-Ws`: left-justified, padded with spaces to `w` runes, never
clipped. -/
def padRight (w : Nat) (s : String) : String :=
  s ++ String.mk (List.replicate (w - s.length) ' ')

/-- The precision `.P` of `%.Ps`: at most the first `p` runes. -/
def clip (p : Nat) (s : String) : String := String.mk (s.data.take p)

/-- The verb `%-W.Ps`: clipped to `p` runes, then padded to `w`. -/
def padClip (w p : Nat) (s : String) : String := padRight w (clip p s)

/-- Format `"%-12s  %-8s %-12s %-32s %s\n"` (line 76). -/
def fmtHeaderTrunc (a b c d e : String) : String :=
  padRight 12 a ++ "  " ++ padRight 8 b ++ " " ++ padRight 12 c ++ " " ++ padRight 32 d ++ " " ++ e ++ "\n"

/-- Format `"%-64s %-8s %-64s %-32s %s\n"` (lines 78 and 91). -/
def fmtWide (a b c d e : String) : String :=
  padRight 64 a ++ " " ++ padRight 8 b ++ " " ++ padRight 64 c ++ " " ++ padRight 32 d ++ " " ++ e ++ "\n"

/-- Format `"%-12.12s  %-8s %-12.12s %-32s %s\n"` (line 89). -/
def fmtRowTrunc (a b c d e : String) : String :=
  padClip 12 12 a ++ "  " ++ padRight 8 b ++ " " ++ padClip 12 12 c ++ " " ++ padRight 32 d ++ " " ++ e ++ "\n"

/-- One call of `fmt.Printf` with the already formatted text. -/
def State.print (st : State) (s : String) : State := { st with stdout := st.stdout ++ s }

/-! ## The closures of `containersCmd` -/

/-- Closure `list` (lines 68-94).  `truncate` is `!c.Bool("notruncate")`. -/
def list (fl : Flags) (n : Nat) (containerID imageID image container : String)
    (isBuilder : Bool) (st0 : State) : State :=
  let st : State := { st0 with listed := st0.listed ++
    [jsonContainer.mk containerID isBuilder imageID image container] }
  if fl.json then
    { st with JSONContainers := st.JSONContainers ++
        [{ ID := containerID, Builder := isBuilder, ImageID := imageID, ImageName := image,
           ContainerName := container : jsonContainer }] }
  else
    let st1 :=
      if n == 0 && !fl.noheading && !fl.quiet then
        if !fl.notruncate then
          st.print (fmtHeaderTrunc "CONTAINER ID" "BUILDER" "IMAGE ID" "IMAGE NAME" "CONTAINER NAME")
        else
          st.print (fmtWide "CONTAINER ID" "BUILDER" "IMAGE ID" "IMAGE NAME" "CONTAINER NAME")
      else st
    if fl.quiet then
      st1.print (containerID ++ "\n")
    else
      let isBuilderValue := if isBuilder then "   *" else ""
      if !fl.notruncate then
        st1.print (fmtRowTrunc containerID isBuilderValue imageID image container)
      else
        st1.print (fmtWide containerID isBuilderValue imageID image container)

/-- Closure `imageNameForID` (lines 96-109).  The last line reads the map
again, so a lookup that stored nothing yields the zero value `""`. -/
def imageNameForID (env : Env) (store : Store) (id : String) (st : State) : String × State :=
  if id = "" then
    (env.BaseImageFakeName, st)
  else
    match st.seenImages.get id with
    | some imageName => (imageName, st)
    | none =>
      let st1 : State := { st with imageCalls := st.imageCalls ++ [id] }
      let st2 : State :=
        match store.Image id with
        | .ok img =>
          if img.Names.length > 0 then
            { st1 with seenImages := st1.seenImages.set id (img.Names.headD "") }
          else st1
        | .error _ => st1
      ((st2.seenImages.get id).getD "", st2)

/-- The loop of lines 116-119 over `builders[i:]`, `i` being the index of the
first element. -/
def rangeBuilders (env : Env) (store : Store) (fl : Flags) :
    Nat → List Builder → State → State
  | _, [], st => st
  | i, builder :: rest, st =>
    let (image, st1) := imageNameForID env store builder.FromImageID st
    rangeBuilders env store fl (i + 1) rest
      (list fl i builder.ContainerID builder.FromImageID image builder.Container true st1)

/-- The loop of lines 122-124: the key set of `builderMap`, a
`map[string]struct{}`, as a duplicate-free list. -/
def builderMapOf : List Builder → List String → List String
  | [], m => m
  | builder :: rest, m =>
    builderMapOf rest (if builder.ContainerID ∈ m then m else builder.ContainerID :: m)

/-- The loop of lines 129-136 over `containers[i:]`. -/
def rangeContainers (env : Env) (store : Store) (fl : Flags) (builderMap : List String) :
    Nat → List Container → State → State
  | _, [], st => st
  | i, container :: rest, st =>
    let name := if container.Names.length > 0 then container.Names.headD "" else ""
    let ours := decide (container.ID ∈ builderMap)
    let (image, st1) := imageNameForID env store container.ImageID st
    rangeContainers env store fl builderMap (i + 1) rest
      (list fl i container.ID container.ImageID image name ours st1)

/-! ## `encoding/json`: `json.MarshalIndent(JSONContainers, "", "    ")`

The encoder is the standard library's.  For a slice of structs whose fields are
strings and booleans it cannot fail, so the model is a total function giving
the document directly in its indented form. -/

/-- The digit table `"0123456789abcdef"` of the encoder. -/
def hexDigit (n : Nat) : Char := "0123456789abcdef".data.getD n '0'

/-- How the encoder writes one rune inside a string literal (HTML escaping is
on for `Marshal`): quote and backslash get a backslash, newline, carriage
return and tab their short forms, the other control characters and
`<`, `>`, `&` the form `\u00XX`, U+2028 and U+2029 the form `\u202X`;
every other rune is copied. -/
def escapeRune (c : Char) : List Char :=
  if c = '"' then ['\\', '"']
  else if c = '\\' then ['\\', '\\']
  else if c = '\n' then ['\\', 'n']
  else if c = '\r' then ['\\', 'r']
  else if c = '\t' then ['\\', 't']
  else if c.toNat < 0x20 ∨ c = '<' ∨ c = '>' ∨ c = '&' then
    ['\\', 'u', '0', '0', hexDigit (c.toNat / 16), hexDigit (c.toNat % 16)]
  else if c.toNat = 0x2028 ∨ c.toNat = 0x2029 then
    ['\\', 'u', '2', '0', '2', hexDigit (c.toNat % 16)]
  else [c]

/-- The body of a string literal: every rune escaped in turn. -/
def escapeRunes : List Char → List Char
  | [] => []
  | c :: cs => escapeRune c ++ escapeRunes cs

/-- A Go string as a JSON string literal. -/
def encodeString (s : String) : List Char := '"' :: (escapeRunes s.data ++ ['"'])

/-- A Go bool as a JSON literal. -/
def encodeBool (b : Bool) : List Char := if b then "true".data else "false".data

/-- The indentation `indent` repeated `depth` times, `indent` being four
spaces. -/
def indentation (depth : Nat) : List Char := List.replicate (4 * depth) ' '

/-- One member of an object at depth two: on a line of its own, the key
written as a string literal, a colon, a space, the value. -/
def encodeMember (key : String) (value : List Char) : List Char :=
  '\n' :: indentation 2 ++ encodeString key ++ [':', ' '] ++ value

/-- One `jsonContainer` as an object at depth one: its members in field order
under the names of the struct tags, separated by commas, the closing brace on a
line of its own. -/
def encodeObject (r : jsonContainer) : List Char :=
  ['\x7b'] ++ encodeMember "id" (encodeString r.ID) ++
  [','] ++ encodeMember "builder" (encodeBool r.Builder) ++
  [','] ++ encodeMember "imageid" (encodeString r.ImageID) ++
  [','] ++ encodeMember "imagename" (encodeString r.ImageName) ++
  [','] ++ encodeMember "containername" (encodeString r.ContainerName) ++
  '\n' :: indentation 1 ++ ['\x7d']

/-- One element of the top-level array, on a line of its own. -/
def encodeElem (r : jsonContainer) : List Char := '\n' :: indentation 1 ++ encodeObject r

/-- The elements of a non-empty array, separated by commas. -/
def encodeElems : List jsonContainer → List Char
  | [] => []
  | [r] => encodeElem r
  | r :: r2 :: rs => encodeElem r ++ ',' :: encodeElems (r2 :: rs)

/-- Function `json.MarshalIndent(v, "", "    ")` for `v : []jsonContainer`, a
non-nil slice: an empty slice is `[]`, a non-empty one has every element and
every member on its own line and the closing bracket on the last. -/
def MarshalIndent (v : List jsonContainer) : String :=
  match v with
  | [] => "[]"
  | r :: rs => String.mk ('[' :: encodeElems (r :: rs) ++ ['\n', ']'])

/-! ## `containersCmd` -/

/-- What a run of `containersCmd` leaves behind: the final state (with
everything written to standard output) and the returned error, `none` for
`nil`. -/
structure Outcome where
  st : State
  err : Option Error
  deriving DecidableEq, Repr

/-- Lines 138-146: print the JSON document when asked to, return `nil`. -/
def finish (fl : Flags) (st : State) : Outcome :=
  if fl.json then
    { st := st.print (MarshalIndent st.JSONContainers ++ "\n"), err := none }
  else
    { st := st, err := none }

/-- Function `containersCmd` (lines 54-147). -/
def containersCmd (env : Env) (fl : Flags) : Outcome :=
  match env.validateFlags fl with
  | some err => { st := State.init, err := some err }
  | none =>
    match env.getStore fl with
    | .error err => { st := State.init, err := some err }
    | .ok store =>
      match env.openBuilders store with
      | .error err =>
        { st := State.init, err := some (Wrapf err "error reading build containers") }
      | .ok builders =>
        if !fl.all then
          finish fl (rangeBuilders env store fl 0 builders State.init)
        else
          let builderMap := builderMapOf builders []
          match store.Containers with
          | .error err2 =>
            { st := State.init, err := some (Wrapf err2 "error reading list of all containers") }
          | .ok containers =>
            finish fl (rangeContainers env store fl builderMap 0 containers State.init)

/-! ## A JSON decoder

The reading side of the round trip: a lexer from characters to tokens and a
recursive-descent parser from tokens to values, for the JSON grammar without
numbers (the documents of this command contain none; a number is rejected). -/

/-- A JSON value. -/
inductive JSON where
  | null
  | bool (b : Bool)
  | str (s : String)
  | arr (elems : List JSON)
  | obj (members : List (String × JSON))

/-- A lexical token of JSON. -/
inductive Token where
  | lbracket
  | rbracket
  | lbrace
  | rbrace
  | comma
  | colon
  | str (s : String)
  | true
  | false
  | null
  deriving DecidableEq, Repr

/-- The value of one hexadecimal digit. -/
def hexVal (c : Char) : Option Nat :=
  if '0'.toNat ≤ c.toNat ∧ c.toNat ≤ '9'.toNat then some (c.toNat - '0'.toNat)
  else if 'a'.toNat ≤ c.toNat ∧ c.toNat ≤ 'f'.toNat then some (c.toNat - 'a'.toNat + 10)
  else if 'A'.toNat ≤ c.toNat ∧ c.toNat ≤ 'F'.toNat then some (c.toNat - 'A'.toNat + 10)
  else none

/-- The value of four hexadecimal digits. -/
def hex4 (a b c d : Char) : Option Nat :=
  match hexVal a, hexVal b, hexVal c, hexVal d with
  | some x, some y, some z, some w => some (((x * 16 + y) * 16 + z) * 16 + w)
  | _, _, _, _ => none

/-- The body of a string literal, after the opening quote: the decoded runes
(appended to `acc`) and the input after the closing quote.  An escape
`\uXXXX` gives the rune with that code; a high surrogate followed by a low
one gives the rune of the pair, any other surrogate U+FFFD. -/
def decodeString : Nat → List Char → List Char → Option (String × List Char)
  | 0, _, _ => none
  | fuel + 1, acc, cs =>
    match cs with
    | [] => none
    | c :: rest =>
      if c = '"' then some (String.mk acc, rest)
      else if c = '\\' then
        match rest with
        | [] => none
        | e :: r =>
          if e = '"' then decodeString fuel (acc ++ ['"']) r
          else if e = '\\' then decodeString fuel (acc ++ ['\\']) r
          else if e = '/' then decodeString fuel (acc ++ ['/']) r
          else if e = 'b' then decodeString fuel (acc ++ [Char.ofNat 8]) r
          else if e = 'f' then decodeString fuel (acc ++ [Char.ofNat 12]) r
          else if e = 'n' then decodeString fuel (acc ++ ['\n']) r
          else if e = 'r' then decodeString fuel (acc ++ ['\r']) r
          else if e = 't' then decodeString fuel (acc ++ ['\t']) r
          else if e = 'u' then
            match r with
            | a :: b :: c2 :: d :: r2 =>
              match hex4 a b c2 d with
              | none => none
              | some n =>
                if 0xD800 ≤ n ∧ n < 0xDC00 then
                  match r2 with
                  | '\\' :: 'u' :: a2 :: b2 :: c3 :: d2 :: r3 =>
                    match hex4 a2 b2 c3 d2 with
                    | none => none
                    | some m =>
                      if 0xDC00 ≤ m ∧ m < 0xE000 then
                        decodeString fuel
                          (acc ++ [Char.ofNat (0x10000 + (n - 0xD800) * 0x400 + (m - 0xDC00))]) r3
                      else decodeString fuel (acc ++ [Char.ofNat 0xFFFD]) r2
                  | _ => decodeString fuel (acc ++ [Char.ofNat 0xFFFD]) r2
                else if 0xDC00 ≤ n ∧ n < 0xE000 then
                  decodeString fuel (acc ++ [Char.ofNat 0xFFFD]) r2
                else decodeString fuel (acc ++ [Char.ofNat n]) r2
            | _ => none
          else none
      else if c.toNat < 0x20 then none
      else decodeString fuel (acc ++ [c]) rest

/-- The lexer: white space is skipped, every other character starts a
token. -/
def lex : Nat → List Char → Option (List Token)
  | 0, _ => none
  | fuel + 1, cs =>
    match cs with
    | [] => some []
    | c :: rest =>
      if c = ' ' ∨ c = '\n' ∨ c = '\t' ∨ c = '\r' then lex fuel rest
      else if c = '[' then (lex fuel rest).map (fun ts => Token.lbracket :: ts)
      else if c = ']' then (lex fuel rest).map (fun ts => Token.rbracket :: ts)
      else if c = '\x7b' then (lex fuel rest).map (fun ts => Token.lbrace :: ts)
      else if c = '\x7d' then (lex fuel rest).map (fun ts => Token.rbrace :: ts)
      else if c = ',' then (lex fuel rest).map (fun ts => Token.comma :: ts)
      else if c = ':' then (lex fuel rest).map (fun ts => Token.colon :: ts)
      else if c = '"' then
        match decodeString (rest.length + 1) [] rest with
        | none => none
        | some (s, rest2) => (lex fuel rest2).map (fun ts => Token.str s :: ts)
      else if c = 't' then
        match rest with
        | 'r' :: 'u' :: 'e' :: rest2 => (lex fuel rest2).map (fun ts => Token.true :: ts)
        | _ => none
      else if c = 'f' then
        match rest with
        | 'a' :: 'l' :: 's' :: 'e' :: rest2 => (lex fuel rest2).map (fun ts => Token.false :: ts)
        | _ => none
      else if c = 'n' then
        match rest with
        | 'u' :: 'l' :: 'l' :: rest2 => (lex fuel rest2).map (fun ts => Token.null :: ts)
        | _ => none
      else none

mutual

/-- One value, and the tokens after it. -/
def parseValue : Nat → List Token → Option (JSON × List Token)
  | 0, _ => none
  | fuel + 1, ts =>
    match ts with
    | Token.str s :: rest => some (JSON.str s, rest)
    | Token.true :: rest => some (JSON.bool true, rest)
    | Token.false :: rest => some (JSON.bool false, rest)
    | Token.null :: rest => some (JSON.null, rest)
    | Token.lbracket :: Token.rbracket :: rest => some (JSON.arr [], rest)
    | Token.lbracket :: rest => parseElems fuel [] rest
    | Token.lbrace :: Token.rbrace :: rest => some (JSON.obj [], rest)
    | Token.lbrace :: rest => parseMembers fuel [] rest
    | _ => none

/-- The elements of an array after `[` or a comma, up to the closing `]`. -/
def parseElems : Nat → List JSON → List Token → Option (JSON × List Token)
  | 0, _, _ => none
  | fuel + 1, acc, ts =>
    match parseValue fuel ts with
    | none => none
    | some (v, rest) =>
      match rest with
      | Token.comma :: rest2 => parseElems fuel (acc ++ [v]) rest2
      | Token.rbracket :: rest2 => some (JSON.arr (acc ++ [v]), rest2)
      | _ => none

/-- The members of an object after the opening brace or a comma, up to the
closing brace. -/
def parseMembers : Nat → List (String × JSON) → List Token → Option (JSON × List Token)
  | 0, _, _ => none
  | fuel + 1, acc, ts =>
    match ts with
    | Token.str k :: Token.colon :: rest =>
      match parseValue fuel rest with
      | none => none
      | some (v, rest2) =>
        match rest2 with
        | Token.comma :: rest3 => parseMembers fuel (acc ++ [(k, v)]) rest3
        | Token.rbrace :: rest3 => some (JSON.obj (acc ++ [(k, v)]), rest3)
        | _ => none
    | _ => none

end

/-- Decoding a document: one value and nothing but white space around it. -/
def decode (doc : String) : Option JSON :=
  match lex (doc.length + 1) doc.data with
  | none => none
  | some ts =>
    match parseValue (ts.length + 1) ts with
    | some (v, []) => some v
    | _ => none

/-- The tokens of the object of a record. -/
def objTokens (r : jsonContainer) : List Token :=
  [Token.lbrace, Token.str "id", Token.colon, Token.str r.ID, Token.comma,
   Token.str "builder", Token.colon, (if r.Builder then Token.true else Token.false), Token.comma,
   Token.str "imageid", Token.colon, Token.str r.ImageID, Token.comma,
   Token.str "imagename", Token.colon, Token.str r.ImageName, Token.comma,
   Token.str "containername", Token.colon, Token.str r.ContainerName, Token.rbrace]

/-- The tokens of the elements of a non-empty array of records. -/
def elemsTokens : List jsonContainer → List Token
  | [] => []
  | [r] => objTokens r
  | r :: r2 :: rs => objTokens r ++ Token.comma :: elemsTokens (r2 :: rs)

/-- The tokens of the document of a record sequence. -/
def docTokens (rs : List jsonContainer) : List Token :=
  match rs with
  | [] => [Token.lbracket, Token.rbracket]
  | r :: rs => Token.lbracket :: elemsTokens (r :: rs) ++ [Token.rbracket]

/-- The lexer turns `cs` into the tokens `ts`, in at most one step per
character, whatever follows. -/
def Lexes (cs : List Char) (ts : List Token) : Prop :=
  ∃ k, k ≤ cs.length ∧ ∀ fuel rest,
    lex (fuel + k) (cs ++ rest) = (lex fuel rest).map (fun out => ts ++ out)

/-- The JSON object of a record: the five members under the names of the
struct tags. -/
def jsonContainer.toJSON (r : jsonContainer) : JSON :=
  JSON.obj [("id", JSON.str r.ID), ("builder", JSON.bool r.Builder),
    ("imageid", JSON.str r.ImageID), ("imagename", JSON.str r.ImageName),
    ("containername", JSON.str r.ContainerName)]

/-! ## Reference notions used in the statements -/

/-- Whether the metadata lookup of an image ID succeeds with at least one
name. -/
def hasName (store : Store) (id : String) : Bool :=
  match store.Image id with
  | .ok img => decide (img.Names.length > 0)
  | .error _ => false

/-- Resolution of an image ID without any cache: the base-image marker for the
empty ID, the first name of the image when the lookup succeeds with one,
otherwise the empty string. -/
def resolveName (env : Env) (store : Store) (imageID : String) : String :=
  if imageID = "" then env.BaseImageFakeName
  else
    match store.Image imageID with
    | .ok img =>
      match img.Names with
      | name :: _ => name
      | [] => ""
    | .error _ => ""

/-- The record expected for one entry of the builder inventory. -/
def builderRecord (env : Env) (store : Store) (b : Builder) : jsonContainer :=
  { ID := b.ContainerID, Builder := true, ImageID := b.FromImageID,
    ImageName := resolveName env store b.FromImageID, ContainerName := b.Container }

/-- The record expected for one container of the storage inventory: its first
name or `""`, and the builder flag set exactly when some entry of the builder
inventory carries its ID. -/
def storageRecord (env : Env) (store : Store) (builders : List Builder) (c : Container) :
    jsonContainer :=
  { ID := c.ID, Builder := decide (∃ b ∈ builders, b.ContainerID = c.ID), ImageID := c.ImageID,
    ImageName := resolveName env store c.ImageID,
    ContainerName := match c.Names with
      | name :: _ => name
      | [] => "" }

/-- The cache holds only first names of images whose lookup succeeds. -/
def CacheOK (store : Store) (m : StrMap) : Prop :=
  ∀ id v, m.get id = some v →
    id ≠ "" ∧ ∃ img, store.Image id = .ok img ∧ img.Names.head? = some v

/-- The header line for the chosen width preset (lines 75-79). -/
def headerLine (fl : Flags) : String :=
  if !fl.notruncate then
    fmtHeaderTrunc "CONTAINER ID" "BUILDER" "IMAGE ID" "IMAGE NAME" "CONTAINER NAME"
  else
    fmtWide "CONTAINER ID" "BUILDER" "IMAGE ID" "IMAGE NAME" "CONTAINER NAME"

/-- The line printed for one record in text mode (lines 81-93). -/
def rowLine (fl : Flags) (r : jsonContainer) : String :=
  if fl.quiet then r.ID ++ "\n"
  else if !fl.notruncate then
    fmtRowTrunc r.ID (if r.Builder then "   *" else "") r.ImageID r.ImageName r.ContainerName
  else
    fmtWide r.ID (if r.Builder then "   *" else "") r.ImageID r.ImageName r.ContainerName

/-- Everything one call of `list` with index `n` writes to standard output. -/
def listText (fl : Flags) (n : Nat) (r : jsonContainer) : String :=
  if fl.json then ""
  else (if n == 0 && !fl.noheading && !fl.quiet then headerLine fl else "") ++ rowLine fl r

/-- Everything the calls of `list` for the records `rs`, indexed from `i`,
write to standard output. -/
def textOut (fl : Flags) : Nat → List jsonContainer → String
  | _, [] => ""
  | i, r :: rs => listText fl i r ++ textOut fl (i + 1) rs

/-- The records expected from a run whose inventories loaded. -/
def expectedRecords (env : Env) (store : Store) (fl : Flags) (builders : List Builder)
    (containers : List Container) : List jsonContainer :=
  if fl.all then containers.map (storageRecord env store builders)
  else builders.map (builderRecord env store)

/-- The complete standard output of a successful run over the records `rs`. -/
def output (fl : Flags) (rs : List jsonContainer) : String :=
  if fl.json then MarshalIndent rs ++ "\n" else textOut fl 0 rs

/-! ### The scenario of the specification

Builder inventory `b1` (image `i1`, name `work1`); storage inventory `b1` and
`c2` (image `i2`, no names); image `i1` is named `alpine:latest`, the lookup of
`i2` fails. -/

def scenarioBuilders : List Builder :=
  [{ Container := "work1", ContainerID := "b1", FromImageID := "i1" }]

def scenarioContainers : List Container :=
  [{ ID := "b1", Names := ["work1"], ImageID := "i1" }, { ID := "c2", Names := [], ImageID := "i2" }]

def scenarioStore : Store where
  Containers := .ok scenarioContainers
  Image := fun id =>
    if id = "i1" then .ok { Names := ["alpine:latest"] } else .error (.root "image not known")

def scenarioEnv : Env where
  BaseImageFakeName := "scratch"
  validateFlags := fun _ => none
  getStore := fun _ => .ok scenarioStore
  openBuilders := fun _ => .ok scenarioBuilders

/-- The scenario with a builder inventory that cannot be read. -/
def unreadableEnv : Env where
  BaseImageFakeName := "scratch"
  validateFlags := fun _ => none
  getStore := fun _ => .ok scenarioStore
  openBuilders := fun _ => .error (.root "state directory unreadable")

/-- A storage inventory with two containers on the same image `i2`. -/
def danglingContainers : List Container :=
  [{ ID := "c2", Names := [], ImageID := "i2" }, { ID := "c3", Names := ["work3"], ImageID := "i2" }]

/-- A store in which no image lookup succeeds. -/
def danglingStore : Store where
  Containers := .ok danglingContainers
  Image := fun _ => .error (.root "image not known")

/-- The scenario of two containers whose common image is gone. -/
def danglingEnv : Env where
  BaseImageFakeName := "scratch"
  validateFlags := fun _ => none
  getStore := fun _ => .ok danglingStore
  openBuilders := fun _ => .ok []

/-- The scenario of an empty builder inventory and an empty storage
inventory. -/
def emptyStore : Store where
  Containers := .ok []
  Image := fun _ => .error (.root "image not known")

def emptyEnv : Env where
  BaseImageFakeName := "scratch"
  validateFlags := fun _ => none
  getStore := fun _ => .ok emptyStore
  openBuilders := fun _ => .ok []

/-- The `id` member of a decoded object, when it is a string. -/
def idField : JSON → Option String
  | JSON.obj members =>
    match members.lookup "id" with
    | some (JSON.str s) => some s
    | _ => none
  | _ => none

/-- The `id` members of the objects of a decoded array, in order. -/
def idFields : JSON → List String
  | JSON.arr elems => elems.filterMap idField
  | _ => []

/-- The `len` characters of a line that start at offset `off`. -/
def field (line : String) (off len : Nat) : String :=
  String.mk ((line.data.drop off).take len)

/-- The rest of a line from offset `off` on. -/
def fieldFrom (line : String) (off : Nat) : String := String.mk (line.data.drop off)

/-- The calls of `list` alone, one per record, indices counted from `i`. -/
def emit (fl : Flags) : Nat → List jsonContainer → State → State
  | _, [], st => st
  | i, r :: rs, st =>
    emit fl (i + 1) rs (list fl i r.ID r.ImageID r.ImageName r.ContainerName r.Builder st)

/-- The calls of `imageNameForID` alone, one per image ID. -/
def resolveAll (env : Env) (store : Store) : List String → State → State
  | [], st => st
  | id :: ids, st => resolveAll env store ids (imageNameForID env store id st).2

/-! ## The map -/

theorem strMap_lookup_filter_ne (m : StrMap) (k k2 : String) (h : k2 ≠ k) :
    List.lookup k2 (m.filter (fun e => e.1 != k)) = List.lookup k2 m := by
  induction m with
  | nil => rfl
  | cons e m ih =>
    obtain ⟨a, b⟩ := e
    by_cases hak : a = k
    · subst hak
      have h1 : (k2 == a) = false := by simpa using h
      simp [List.filter, List.lookup, h1, ih]
    · have h1 : (a != k) = true := by simpa using hak
      simp only [List.filter, h1, List.lookup]
      rw [ih]

theorem strMap_get_set_self (m : StrMap) (k v : String) : (m.set k v).get k = some v := by
  simp [StrMap.get, StrMap.set, List.lookup]

theorem strMap_get_set_other (m : StrMap) (k v k2 : String) (h : k2 ≠ k) :
    (m.set k v).get k2 = m.get k2 := by
  have h1 : (k2 == k) = false := by simpa using h
  simp only [StrMap.get, StrMap.set, List.lookup, h1]
  exact strMap_lookup_filter_ne m k k2 h

theorem cacheOK_nil (store : Store) : CacheOK store [] := by
  intro id v h
  simp [StrMap.get, List.lookup] at h

/-! ## `imageNameForID` -/

theorem imageNameForID_empty (env : Env) (store : Store) (st : State) :
    imageNameForID env store "" st = (env.BaseImageFakeName, st) := by
  simp [imageNameForID]

theorem imageNameForID_hit (env : Env) (store : Store) (id v : String) (st : State)
    (hid : id ≠ "") (h : st.seenImages.get id = some v) :
    imageNameForID env store id st = (v, st) := by
  simp [imageNameForID, hid, h]

theorem imageNameForID_miss_named (env : Env) (store : Store) (id : String) (st : State)
    (img : Image) (hid : id ≠ "") (h : st.seenImages.get id = none)
    (hi : store.Image id = .ok img) (hn : img.Names.length > 0) :
    imageNameForID env store id st =
      (img.Names.headD "", { st with imageCalls := st.imageCalls ++ [id],
                                     seenImages := st.seenImages.set id (img.Names.headD "") }) := by
  simp [imageNameForID, hid, h, hi, hn, strMap_get_set_self]

theorem imageNameForID_miss_unnamed (env : Env) (store : Store) (id : String) (st : State)
    (hid : id ≠ "") (h : st.seenImages.get id = none) (hn : hasName store id = false) :
    imageNameForID env store id st = ("", { st with imageCalls := st.imageCalls ++ [id] }) := by
  unfold hasName at hn
  cases hi : store.Image id with
  | error e => simp [imageNameForID, hid, h, hi]
  | ok img =>
    rw [hi] at hn
    have hn2 : ¬ (img.Names.length > 0) := by simpa using hn
    simp [imageNameForID, hid, h, hi, hn2]

theorem hasName_of_ok (store : Store) (id : String) (img : Image)
    (hi : store.Image id = .ok img) (hn : img.Names.length > 0) : hasName store id = true := by
  simp [hasName, hi, hn]

/-- The four ways through `imageNameForID`. -/
theorem imageNameForID_cases (env : Env) (store : Store) (id : String) (st : State) :
    (id = "" ∧ imageNameForID env store id st = (env.BaseImageFakeName, st)) ∨
    (id ≠ "" ∧ ∃ v, st.seenImages.get id = some v ∧ imageNameForID env store id st = (v, st)) ∨
    (id ≠ "" ∧ st.seenImages.get id = none ∧ ∃ img, store.Image id = .ok img ∧
      img.Names.length > 0 ∧ hasName store id = true ∧
      imageNameForID env store id st =
        (img.Names.headD "", { st with imageCalls := st.imageCalls ++ [id],
                                       seenImages := st.seenImages.set id (img.Names.headD "") })) ∨
    (id ≠ "" ∧ st.seenImages.get id = none ∧ hasName store id = false ∧
      imageNameForID env store id st = ("", { st with imageCalls := st.imageCalls ++ [id] })) := by
  by_cases hid : id = ""
  · left
    subst hid
    exact ⟨rfl, imageNameForID_empty env store st⟩
  · right
    cases hg : st.seenImages.get id with
    | some v => exact Or.inl ⟨hid, v, rfl, imageNameForID_hit env store id v st hid hg⟩
    | none =>
      right
      cases hn : hasName store id with
      | false => exact Or.inr ⟨hid, rfl, rfl, imageNameForID_miss_unnamed env store id st hid hg hn⟩
      | true =>
        left
        cases hi : store.Image id with
        | error e => simp [hasName, hi] at hn
        | ok img =>
          have hlen : img.Names.length > 0 := by simpa [hasName, hi] using hn
          exact ⟨hid, rfl, img, rfl, hlen, rfl,
            imageNameForID_miss_named env store id st img hid hg hi hlen⟩

theorem headD_eq_of_head? (l : List String) (v : String) (h : l.head? = some v) :
    l.headD "" = v := by
  cases l with
  | nil => simp at h
  | cons a l => simpa using h

theorem head?_of_length_pos (l : List String) (h : l.length > 0) :
    l.head? = some (l.headD "") := by
  cases l with
  | nil => simp at h
  | cons a l => simp

theorem resolveName_of_named (env : Env) (store : Store) (id : String) (img : Image)
    (hid : id ≠ "") (hi : store.Image id = .ok img) (hn : img.Names.length > 0) :
    resolveName env store id = img.Names.headD "" := by
  unfold resolveName
  rw [if_neg hid, hi]
  cases hnames : img.Names with
  | nil => simp [hnames] at hn
  | cons a l => simp [hnames]

theorem resolveName_of_unnamed (env : Env) (store : Store) (id : String)
    (hid : id ≠ "") (hn : hasName store id = false) : resolveName env store id = "" := by
  unfold resolveName
  rw [if_neg hid]
  unfold hasName at hn
  cases hi : store.Image id with
  | error e => rfl
  | ok img =>
    rw [hi] at hn
    cases hnames : img.Names with
    | nil => simp [hnames]
    | cons a l => simp [hnames] at hn

/-- With a sound cache the closure returns the uncached resolution. -/
theorem imageNameForID_fst (env : Env) (store : Store) (id : String) (st : State)
    (hc : CacheOK store st.seenImages) :
    (imageNameForID env store id st).1 = resolveName env store id := by
  rcases imageNameForID_cases env store id st with
    ⟨hid, h⟩ | ⟨hid, v, hg, h⟩ | ⟨hid, hg, img, hi, hlen, _, h⟩ | ⟨hid, hg, hn, h⟩
  · rw [h, hid]; simp [resolveName]
  · rw [h]
    obtain ⟨_, img, hi, hh⟩ := hc id v hg
    have hlen : img.Names.length > 0 := by
      cases hnames : img.Names with
      | nil => simp [hnames] at hh
      | cons a l => simp
    rw [resolveName_of_named env store id img hid hi hlen]
    exact (headD_eq_of_head? _ _ hh).symm
  · rw [h, resolveName_of_named env store id img hid hi hlen]
  · rw [h, resolveName_of_unnamed env store id hid hn]

/-- The closure keeps the cache sound. -/
theorem imageNameForID_cacheOK (env : Env) (store : Store) (id : String) (st : State)
    (hc : CacheOK store st.seenImages) :
    CacheOK store (imageNameForID env store id st).2.seenImages := by
  rcases imageNameForID_cases env store id st with
    ⟨hid, h⟩ | ⟨hid, v, hg, h⟩ | ⟨hid, hg, img, hi, hlen, _, h⟩ | ⟨hid, hg, hn, h⟩
  · rw [h]; exact hc
  · rw [h]; exact hc
  · rw [h]
    intro k v hk
    by_cases hkid : k = id
    · subst hkid
      simp only [strMap_get_set_self, Option.some.injEq] at hk
      subst hk
      exact ⟨hid, img, hi, head?_of_length_pos _ hlen⟩
    · simp only [strMap_get_set_other _ _ _ _ hkid] at hk
      exact hc k v hk
  · rw [h]; exact hc

/-- The closure touches nothing but the cache and the call log. -/
theorem imageNameForID_frame (env : Env) (store : Store) (id : String) (st : State) :
    (imageNameForID env store id st).2.stdout = st.stdout ∧
    (imageNameForID env store id st).2.JSONContainers = st.JSONContainers ∧
    (imageNameForID env store id st).2.listed = st.listed := by
  rcases imageNameForID_cases env store id st with
    ⟨hid, h⟩ | ⟨hid, v, hg, h⟩ | ⟨hid, hg, img, hi, hlen, _, h⟩ | ⟨hid, hg, hn, h⟩ <;>
  rw [h] <;> exact ⟨rfl, rfl, rfl⟩

/-! ## `list` -/

/-- One call of `list` in closed form. -/
theorem list_eq (fl : Flags) (n : Nat) (containerID imageID image container : String)
    (isBuilder : Bool) (st : State) :
    list fl n containerID imageID image container isBuilder st =
      { stdout := st.stdout ++
          listText fl n (jsonContainer.mk containerID isBuilder imageID image container),
        JSONContainers := st.JSONContainers ++
          (if fl.json then [jsonContainer.mk containerID isBuilder imageID image container] else []),
        seenImages := st.seenImages,
        imageCalls := st.imageCalls,
        listed := st.listed ++ [jsonContainer.mk containerID isBuilder imageID image container] } := by
  obtain ⟨all, json, noheading, notruncate, quiet⟩ := fl
  by_cases hn : n = 0 <;>
  cases json <;> cases noheading <;> cases notruncate <;> cases quiet <;>
  simp [list, listText, headerLine, rowLine, State.print, hn, String.append_assoc]

/-- The calls of `list` for a whole record sequence in closed form. -/
theorem emit_eq (fl : Flags) (rs : List jsonContainer) (i : Nat) (st : State) :
    emit fl i rs st =
      { stdout := st.stdout ++ textOut fl i rs,
        JSONContainers := st.JSONContainers ++ (if fl.json then rs else []),
        seenImages := st.seenImages,
        imageCalls := st.imageCalls,
        listed := st.listed ++ rs } := by
  induction rs generalizing i st with
  | nil => cases hj : fl.json <;> simp [emit, textOut]
  | cons r rs ih =>
    rw [emit, ih, list_eq]
    cases hj : fl.json <;> simp [textOut, String.append_assoc]

/-- Moving a call of `list` past a call of `imageNameForID`. -/
theorem imageNameForID_list (env : Env) (store : Store) (id : String) (fl : Flags) (n : Nat)
    (a b c d : String) (e : Bool) (st : State) :
    imageNameForID env store id (list fl n a b c d e st) =
      ((imageNameForID env store id st).1, list fl n a b c d e (imageNameForID env store id st).2) := by
  have hs : (list fl n a b c d e st).seenImages = st.seenImages := by rw [list_eq]
  rcases imageNameForID_cases env store id st with
    ⟨hid, h⟩ | ⟨hid, v, hg, h⟩ | ⟨hid, hg, img, hi, hlen, _, h⟩ | ⟨hid, hg, hn, h⟩
  · rw [h]; subst hid; exact imageNameForID_empty env store _
  · rw [h]; exact imageNameForID_hit env store id v _ hid (by rw [hs]; exact hg)
  · rw [h, imageNameForID_miss_named env store id _ img hid (by rw [hs]; exact hg) hi hlen]
    simp [list_eq]
  · rw [h, imageNameForID_miss_unnamed env store id _ hid (by rw [hs]; exact hg) hn]
    simp [list_eq]

theorem resolveAll_list (env : Env) (store : Store) (ids : List String) (fl : Flags) (n : Nat)
    (a b c d : String) (e : Bool) (st : State) :
    resolveAll env store ids (list fl n a b c d e st) =
      list fl n a b c d e (resolveAll env store ids st) := by
  induction ids generalizing st with
  | nil => rfl
  | cons id ids ih => simp only [resolveAll, imageNameForID_list, ih]

theorem resolveAll_frame (env : Env) (store : Store) (ids : List String) (st : State) :
    (resolveAll env store ids st).stdout = st.stdout ∧
    (resolveAll env store ids st).JSONContainers = st.JSONContainers ∧
    (resolveAll env store ids st).listed = st.listed := by
  induction ids generalizing st with
  | nil => exact ⟨rfl, rfl, rfl⟩
  | cons id ids ih =>
    obtain ⟨h1, h2, h3⟩ := imageNameForID_frame env store id st
    obtain ⟨k1, k2, k3⟩ := ih (imageNameForID env store id st).2
    exact ⟨by rw [resolveAll, k1, h1], by rw [resolveAll, k2, h2], by rw [resolveAll, k3, h3]⟩

/-- The loop over the builder inventory: all the lookups, then all the calls
of `list` on the expected records. -/
theorem rangeBuilders_eq (env : Env) (store : Store) (fl : Flags) (bs : List Builder) (i : Nat)
    (st : State) (hc : CacheOK store st.seenImages) :
    rangeBuilders env store fl i bs st =
      emit fl i (bs.map (builderRecord env store))
        (resolveAll env store (bs.map (fun b => b.FromImageID)) st) := by
  induction bs generalizing i st with
  | nil => rfl
  | cons b bs ih =>
    have hc1 := imageNameForID_cacheOK env store b.FromImageID st hc
    have hv := imageNameForID_fst env store b.FromImageID st hc
    simp only [rangeBuilders, List.map_cons, emit, resolveAll]
    rw [ih (i + 1) _ (by rw [list_eq]; exact hc1), resolveAll_list, hv]
    rfl

/-- The key set built by lines 121-124. -/
theorem mem_builderMapOf (bs : List Builder) (m : List String) (x : String) :
    x ∈ builderMapOf bs m ↔ x ∈ m ∨ ∃ b ∈ bs, b.ContainerID = x := by
  induction bs generalizing m with
  | nil => simp [builderMapOf]
  | cons b bs ih =>
    rw [builderMapOf, ih]
    by_cases hb : b.ContainerID ∈ m
    · rw [if_pos hb]
      constructor
      · rintro (h | ⟨c, hc, rfl⟩)
        · exact Or.inl h
        · exact Or.inr ⟨c, List.mem_cons_of_mem _ hc, rfl⟩
      · rintro (h | ⟨c, hc, rfl⟩)
        · exact Or.inl h
        · rcases List.mem_cons.mp hc with rfl | hc
          · exact Or.inl hb
          · exact Or.inr ⟨c, hc, rfl⟩
    · rw [if_neg hb]
      constructor
      · rintro (h | ⟨c, hc, rfl⟩)
        · rcases List.mem_cons.mp h with rfl | h
          · exact Or.inr ⟨b, List.mem_cons_self _ _, rfl⟩
          · exact Or.inl h
        · exact Or.inr ⟨c, List.mem_cons_of_mem _ hc, rfl⟩
      · rintro (h | ⟨c, hc, rfl⟩)
        · exact Or.inl (List.mem_cons_of_mem _ h)
        · rcases List.mem_cons.mp hc with rfl | hc
          · exact Or.inl (List.mem_cons_self _ _)
          · exact Or.inr ⟨c, hc, rfl⟩

/-- The loop over the storage inventory, likewise. -/
theorem rangeContainers_eq (env : Env) (store : Store) (fl : Flags) (builders : List Builder)
    (cs : List Container) (i : Nat) (st : State) (hc : CacheOK store st.seenImages) :
    rangeContainers env store fl (builderMapOf builders []) i cs st =
      emit fl i (cs.map (storageRecord env store builders))
        (resolveAll env store (cs.map (fun c => c.ImageID)) st) := by
  induction cs generalizing i st with
  | nil => rfl
  | cons c cs ih =>
    have hc1 := imageNameForID_cacheOK env store c.ImageID st hc
    have hv := imageNameForID_fst env store c.ImageID st hc
    have hname : (if c.Names.length > 0 then c.Names.headD "" else "") =
        (match c.Names with
          | name :: _ => name
          | [] => "") := by
      cases c.Names <;> simp
    have hours : decide (c.ID ∈ builderMapOf builders []) =
        decide (∃ b ∈ builders, b.ContainerID = c.ID) := by
      simp [mem_builderMapOf]
    simp only [rangeContainers, List.map_cons, emit, resolveAll]
    rw [ih (i + 1) _ (by rw [list_eq]; exact hc1), resolveAll_list, hv, hname, hours]
    rfl

/-! ## `containersCmd` -/

theorem textOut_json (fl : Flags) (hj : fl.json = true) (rs : List jsonContainer) (i : Nat) :
    textOut fl i rs = "" := by
  induction rs generalizing i with
  | nil => rfl
  | cons r rs ih => simp [textOut, listText, hj, ih]

/-- The state after the loops in closed form, and the outcome of the run. -/
theorem finish_emit (env : Env) (store : Store) (fl : Flags) (rs : List jsonContainer) :
    finish fl (emit fl 0 rs
        (resolveAll env store (rs.map (fun r => r.ImageID)) State.init)) =
      { st := { stdout := output fl rs,
                JSONContainers := if fl.json then rs else [],
                seenImages :=
                  (resolveAll env store (rs.map (fun r => r.ImageID)) State.init).seenImages,
                imageCalls :=
                  (resolveAll env store (rs.map (fun r => r.ImageID)) State.init).imageCalls,
                listed := rs },
        err := none } := by
  obtain ⟨h1, h2, h3⟩ := resolveAll_frame env store (rs.map (fun r => r.ImageID)) State.init
  rw [emit_eq, h1, h2, h3]
  cases hj : fl.json
  · simp [finish, output, hj, State.init]
  · simp [finish, output, hj, State.init, State.print, textOut_json fl hj]

theorem map_ImageID_builderRecord (env : Env) (store : Store) (bs : List Builder) :
    (bs.map (builderRecord env store)).map (fun r => r.ImageID) =
      bs.map (fun b => b.FromImageID) := by
  simp [builderRecord]

theorem map_ImageID_storageRecord (env : Env) (store : Store) (builders : List Builder)
    (cs : List Container) :
    (cs.map (storageRecord env store builders)).map (fun r => r.ImageID) =
      cs.map (fun c => c.ImageID) := by
  simp [storageRecord]

/-- A run whose inventories load, in closed form. -/
theorem containersCmd_ok (env : Env) (fl : Flags) (store : Store) (builders : List Builder)
    (containers : List Container)
    (hv : env.validateFlags fl = none) (hs : env.getStore fl = .ok store)
    (hb : env.openBuilders store = .ok builders)
    (hc : fl.all = true → store.Containers = .ok containers) :
    containersCmd env fl =
      finish fl (emit fl 0 (expectedRecords env store fl builders containers)
        (resolveAll env store
          ((expectedRecords env store fl builders containers).map (fun r => r.ImageID))
          State.init)) := by
  unfold containersCmd expectedRecords
  simp only [hv, hs, hb]
  cases hall : fl.all
  · simp only [Bool.not_false, if_true, Bool.false_eq_true, if_false]
    rw [rangeBuilders_eq env store fl builders 0 State.init (cacheOK_nil store),
      map_ImageID_builderRecord]
  · simp only [Bool.not_true, Bool.false_eq_true, if_false, if_true, hc hall]
    rw [rangeContainers_eq env store fl builders containers 0 State.init (cacheOK_nil store),
      map_ImageID_storageRecord]

/-- Every run either fails having done nothing, or is a successful run over
some record sequence. -/
theorem containersCmd_cases (env : Env) (fl : Flags) :
    (∃ e, containersCmd env fl = { st := State.init, err := some e }) ∨
    (∃ store rs, env.getStore fl = .ok store ∧
      containersCmd env fl =
        finish fl (emit fl 0 rs
          (resolveAll env store (rs.map (fun r => r.ImageID)) State.init))) := by
  cases hv : env.validateFlags fl with
  | some e => left; exact ⟨e, by simp [containersCmd, hv]⟩
  | none =>
    cases hs : env.getStore fl with
    | error e => left; exact ⟨e, by simp [containersCmd, hv, hs]⟩
    | ok store =>
      cases hb : env.openBuilders store with
      | error e =>
        left
        exact ⟨Wrapf e "error reading build containers", by simp only [containersCmd, hv, hs, hb]⟩
      | ok builders =>
        cases hall : fl.all with
        | false =>
          right
          exact ⟨store, _, rfl, containersCmd_ok env fl store builders [] hv hs hb (by simp [hall])⟩
        | true =>
          cases hc : store.Containers with
          | error e =>
            left
            exact ⟨Wrapf e "error reading list of all containers", by
              simp only [containersCmd, hv, hs, hb, hall, hc, Bool.not_true,
                Bool.false_eq_true, if_false]⟩
          | ok containers =>
            right
            exact ⟨store, _, rfl, containersCmd_ok env fl store builders containers hv hs hb
              (fun _ => hc)⟩

theorem storageRecord_eq (env : Env) (store : Store) (builders : List Builder) (c : Container) :
    storageRecord env store builders c =
      jsonContainer.mk c.ID (decide (∃ b ∈ builders, b.ContainerID = c.ID)) c.ImageID
        (resolveName env store c.ImageID) (c.Names.headD "") := by
  unfold storageRecord
  cases c.Names <;> rfl

theorem join_append_foldl (l : List String) (acc : String) :
    List.foldl (fun r s => r ++ s) acc l = acc ++ String.join l := by
  induction l generalizing acc with
  | nil => simp [String.join]
  | cons a l ih =>
    simp only [String.join, List.foldl_cons]
    rw [ih, ih ("" ++ a), String.empty_append, String.append_assoc]

theorem join_cons (a : String) (l : List String) : String.join (a :: l) = a ++ String.join l := by
  rw [String.join, List.foldl_cons, join_append_foldl, String.empty_append]

theorem textOut_quiet (fl : Flags) (hj : fl.json = false) (hq : fl.quiet = true)
    (rs : List jsonContainer) (i : Nat) :
    textOut fl i rs = String.join (rs.map (fun r => r.ID ++ "\n")) := by
  induction rs generalizing i with
  | nil => rfl
  | cons r rs ih =>
    rw [textOut, ih, List.map_cons, join_cons]
    simp [listText, rowLine, hj, hq]

/-- How often `store.Image` is called for `id` while the image IDs `ids` are
resolved one after the other. -/
theorem resolveAll_calls (env : Env) (store : Store) (id : String) (ids : List String)
    (st : State) (hc : CacheOK store st.seenImages) :
    (resolveAll env store ids st).imageCalls.count id =
      st.imageCalls.count id +
        (if id = "" then 0
         else if hasName store id then
           (if (st.seenImages.get id).isSome then 0 else if id ∈ ids then 1 else 0)
         else ids.count id) := by
  induction ids generalizing st with
  | nil => simp [resolveAll]
  | cons x xs ih =>
    have ih2 := ih (imageNameForID env store x st).2 (imageNameForID_cacheOK env store x st hc)
    rw [resolveAll, ih2]
    rcases imageNameForID_cases env store x st with
      ⟨hx, h⟩ | ⟨hx, v, hg, h⟩ | ⟨hx, hg, img, hi, hlen, hnx, h⟩ | ⟨hx, hg, hnx, h⟩
    · rw [h]
      by_cases hid : id = ""
      · simp [hid]
      · have hne : id ≠ x := by rw [hx]; exact hid
        have hne2 : ¬ (x = id) := fun h => hne h.symm
        simp [hid, hne, List.count_cons, hne2]
    · rw [h]
      by_cases hidx : id = x
      · subst hidx
        obtain ⟨_, img, hi, hh⟩ := hc id v hg
        have hlen : img.Names.length > 0 := by
          cases hnames : img.Names with
          | nil => simp [hnames] at hh
          | cons a l => simp
        simp [hx, hg, hasName_of_ok store id img hi hlen]
      · have hne2 : ¬ (x = id) := fun h => hidx h.symm
        simp [hidx, List.count_cons, hne2]
    · rw [h]
      by_cases hidx : id = x
      · subst hidx
        simp [hx, hg, hnx, strMap_get_set_self, List.count_append]
      · have hne2 : ¬ (x = id) := fun h => hidx h.symm
        simp [hidx, List.count_cons, hne2, List.count_append, strMap_get_set_other _ _ _ _ hidx]
    · rw [h]
      by_cases hidx : id = x
      · subst hidx
        simp [hx, hg, hnx, List.count_append, List.count_cons]
        omega
      · have hne2 : ¬ (x = id) := fun h => hidx h.symm
        simp [hidx, List.count_cons, hne2, List.count_append]

/-! ## Decoding what the encoder wrote -/

theorem hexVal_hexDigit (k : Nat) (hk : k < 16) : hexVal (hexDigit k) = some k := by
  interval_cases k <;> rfl

theorem hex4_low (c : Char) (hc : c.toNat < 256) :
    hex4 '0' '0' (hexDigit (c.toNat / 16)) (hexDigit (c.toNat % 16)) = some c.toNat := by
  have h1 : hexVal '0' = some 0 := rfl
  have h2 := hexVal_hexDigit (c.toNat / 16) (by omega)
  have h3 := hexVal_hexDigit (c.toNat % 16) (by omega)
  simp only [hex4, h1, h2, h3]
  congr 1
  omega

/-- Reading back one escaped rune. -/
theorem decodeString_step (c : Char) (acc rest : List Char) (fuel : Nat) :
    decodeString (fuel + 1) acc (escapeRune c ++ rest) = decodeString fuel (acc ++ [c]) rest := by
  unfold escapeRune
  split_ifs with h1 h2 h3 h4 h5 h6 h7
  · subst h1; simp [decodeString]
  · subst h2; simp [decodeString]
  · subst h3; simp [decodeString]
  · subst h4; simp [decodeString]
  · subst h5; simp [decodeString]
  · have hlt : c.toNat < 256 := by
      rcases h6 with h | h | h | h
      · omega
      · subst h; decide
      · subst h; decide
      · subst h; decide
    simp only [decodeString, hex4_low c hlt, List.cons_append, List.nil_append]
    simp
    rw [if_neg (by omega), if_neg (by omega)]
  · have hc : c = Char.ofNat 8232 ∨ c = Char.ofNat 8233 := by
      rcases h7 with h | h
      · left; rw [← h, Char.ofNat_toNat]
      · right; rw [← h, Char.ofNat_toNat]
    rcases hc with rfl | rfl
    · have hx : hex4 '2' '0' '2' (hexDigit ((Char.ofNat 8232).toNat % 16)) = some 8232 := by rfl
      simp only [decodeString, List.cons_append, List.nil_append, hx]
      simp
    · have hx : hex4 '2' '0' '2' (hexDigit ((Char.ofNat 8233).toNat % 16)) = some 8233 := by rfl
      simp only [decodeString, List.cons_append, List.nil_append, hx]
      simp
  · have h8 : ¬ c.toNat < 32 := fun h => h6 (Or.inl h)
    simp [decodeString, h1, h2, h8]

theorem escapeRune_length (c : Char) : 1 ≤ (escapeRune c).length := by
  unfold escapeRune
  split_ifs <;> simp

theorem escapeRunes_length (cs : List Char) : cs.length ≤ (escapeRunes cs).length := by
  induction cs with
  | nil => simp [escapeRunes]
  | cons c cs ih =>
    have := escapeRune_length c
    simp only [escapeRunes, List.length_append, List.length_cons]
    omega

/-- Reading back a whole string body up to the closing quote. -/
theorem decodeString_escapeRunes (cs acc rest : List Char) (fuel : Nat) (h : cs.length < fuel) :
    decodeString fuel acc (escapeRunes cs ++ '"' :: rest) = some (String.mk (acc ++ cs), rest) := by
  induction cs generalizing acc fuel with
  | nil =>
    obtain ⟨f, rfl⟩ : ∃ f, fuel = f + 1 := ⟨fuel - 1, by omega⟩
    simp [escapeRunes, decodeString]
  | cons c cs ih =>
    obtain ⟨f, rfl⟩ : ∃ f, fuel = f + 1 := ⟨fuel - 1, by omega⟩
    rw [escapeRunes, List.append_assoc, decodeString_step,
      ih (acc ++ [c]) f (by simpa using h)]
    simp

theorem lexes_nil : Lexes [] [] :=
  ⟨0, by simp, fun fuel rest => by simp⟩

theorem lexes_append (a b : List Char) (ta tb : List Token) (ha : Lexes a ta) (hb : Lexes b tb) :
    Lexes (a ++ b) (ta ++ tb) := by
  obtain ⟨ka, hka, ha⟩ := ha
  obtain ⟨kb, hkb, hb⟩ := hb
  refine ⟨kb + ka, by simp only [List.length_append]; omega, fun fuel rest => ?_⟩
  rw [List.append_assoc, ← Nat.add_assoc, ha, hb]
  cases lex fuel rest <;> simp

theorem lexes_white (cs : List Char) (h : ∀ c ∈ cs, c = ' ' ∨ c = '\n') : Lexes cs [] := by
  induction cs with
  | nil => exact lexes_nil
  | cons c cs ih =>
    have hc := h c (List.mem_cons_self _ _)
    have h1 : Lexes [c] [] := by
      refine ⟨1, by simp, fun fuel rest => ?_⟩
      rcases hc with rfl | rfl <;> simp [lex]
    exact lexes_append [c] cs [] [] h1 (ih (fun d hd => h d (List.mem_cons_of_mem _ hd)))

theorem lexes_indentation (depth : Nat) : Lexes ('\n' :: indentation depth) [] := by
  apply lexes_white
  intro c hc
  rcases List.mem_cons.mp hc with rfl | hc
  · exact Or.inr rfl
  · exact Or.inl (List.eq_of_mem_replicate hc)

theorem lexes_string (s : String) : Lexes (encodeString s) [Token.str s] := by
  refine ⟨1, by simp [encodeString], fun fuel rest => ?_⟩
  have hlen : s.data.length < (escapeRunes s.data ++ '"' :: rest).length + 1 := by
    have := escapeRunes_length s.data
    simp only [List.length_append, List.length_cons]
    omega
  have hd := decodeString_escapeRunes s.data [] rest _ hlen
  rw [encodeString, List.cons_append, List.append_assoc, List.singleton_append]
  simp only [lex, hd]
  simp

theorem lexes_bool (b : Bool) :
    Lexes (encodeBool b) [if b then Token.true else Token.false] := by
  refine ⟨1, by cases b <;> simp [encodeBool], fun fuel rest => ?_⟩
  cases b <;> simp [encodeBool, lex]

theorem lexes_comma : Lexes [','] [Token.comma] :=
  ⟨1, by simp, fun fuel rest => by simp [lex]⟩

theorem lexes_lbrace : Lexes ['\x7b'] [Token.lbrace] :=
  ⟨1, by simp, fun fuel rest => by simp [lex]⟩

theorem lexes_rbrace : Lexes ['\x7d'] [Token.rbrace] :=
  ⟨1, by simp, fun fuel rest => by simp [lex]⟩

theorem lexes_lbracket : Lexes ['['] [Token.lbracket] :=
  ⟨1, by simp, fun fuel rest => by simp [lex]⟩

theorem lexes_rbracket : Lexes [']'] [Token.rbracket] :=
  ⟨1, by simp, fun fuel rest => by simp [lex]⟩

theorem lexes_colon : Lexes [':', ' '] [Token.colon] :=
  ⟨2, by simp, fun fuel rest => by simp [lex]⟩

theorem lexes_member (key : String) (value : List Char) (tv : Token) (hv : Lexes value [tv]) :
    Lexes (encodeMember key value) [Token.str key, Token.colon, tv] := by
  have h := lexes_append _ _ _ _ (lexes_indentation 2)
    (lexes_append _ _ _ _ (lexes_string key) (lexes_append _ _ _ _ lexes_colon hv))
  simpa [encodeMember] using h

theorem lexes_object (r : jsonContainer) : Lexes (encodeObject r) (objTokens r) := by
  have h :=
    lexes_append _ _ _ _ lexes_lbrace
    (lexes_append _ _ _ _ (lexes_member "id" _ _ (lexes_string r.ID))
    (lexes_append _ _ _ _ lexes_comma
    (lexes_append _ _ _ _ (lexes_member "builder" _ _ (lexes_bool r.Builder))
    (lexes_append _ _ _ _ lexes_comma
    (lexes_append _ _ _ _ (lexes_member "imageid" _ _ (lexes_string r.ImageID))
    (lexes_append _ _ _ _ lexes_comma
    (lexes_append _ _ _ _ (lexes_member "imagename" _ _ (lexes_string r.ImageName))
    (lexes_append _ _ _ _ lexes_comma
    (lexes_append _ _ _ _ (lexes_member "containername" _ _ (lexes_string r.ContainerName))
    (lexes_append _ _ _ _ (lexes_indentation 1) lexes_rbrace))))))))))
  simpa [encodeObject, objTokens] using h

theorem lexes_elem (r : jsonContainer) : Lexes (encodeElem r) (objTokens r) := by
  have h := lexes_append _ _ _ _ (lexes_indentation 1) (lexes_object r)
  simpa [encodeElem] using h

theorem lexes_elems (rs : List jsonContainer) : Lexes (encodeElems rs) (elemsTokens rs) := by
  induction rs with
  | nil => exact lexes_nil
  | cons r rs ih =>
    cases rs with
    | nil => exact lexes_elem r
    | cons r2 rs =>
      have h := lexes_append _ _ _ _ (lexes_elem r) (lexes_append _ _ _ _ lexes_comma ih)
      simpa [encodeElems, elemsTokens] using h

/-- The tokens of the whole document, trailing newline included. -/
theorem lexes_document (rs : List jsonContainer) :
    Lexes (MarshalIndent rs ++ "\n").data (docTokens rs) := by
  cases rs with
  | nil =>
    have h := lexes_append _ _ _ _ lexes_lbracket
      (lexes_append _ _ _ _ lexes_rbracket (lexes_indentation 0))
    simpa [MarshalIndent, docTokens, indentation] using h
  | cons r rs =>
    have h := lexes_append _ _ _ _ lexes_lbracket
      (lexes_append _ _ _ _ (lexes_elems (r :: rs))
      (lexes_append _ _ _ _ (lexes_indentation 0)
      (lexes_append _ _ _ _ lexes_rbracket (lexes_indentation 0))))
    simpa [MarshalIndent, docTokens, indentation] using h

theorem lex_of_Lexes (doc : String) (ts : List Token) (h : Lexes doc.data ts) :
    lex (doc.length + 1) doc.data = some ts := by
  obtain ⟨k, hk, h⟩ := h
  have hk2 : k ≤ doc.length := hk
  have h2 := h (doc.length + 1 - k) []
  rw [show doc.length + 1 - k + k = doc.length + 1 by omega, List.append_nil] at h2
  rw [h2]
  obtain ⟨f, hf⟩ : ∃ f, doc.length + 1 - k = f + 1 := ⟨doc.length - k, by omega⟩
  rw [hf]
  simp [lex]

theorem parseValue_object (r : jsonContainer) (rest : List Token) (fuel : Nat) :
    parseValue (fuel + 1 + 1 + 1 + 1 + 1 + 1 + 1) (objTokens r ++ rest) = some (r.toJSON, rest) := by
  cases hb : r.Builder <;>
  simp [objTokens, parseValue, parseMembers, jsonContainer.toJSON, hb]

theorem elemsTokens_length (rs : List jsonContainer) :
    21 * rs.length ≤ (elemsTokens rs).length := by
  induction rs with
  | nil => simp
  | cons r rs ih =>
    cases rs with
    | nil => simp [elemsTokens, objTokens]
    | cons r2 rs =>
      simp only [elemsTokens, List.length_append, List.length_cons, objTokens] at ih ⊢
      omega

theorem elemsTokens_head (r : jsonContainer) (rs : List jsonContainer) :
    ∃ tail, elemsTokens (r :: rs) = Token.lbrace :: tail := by
  cases rs with
  | nil => exact ⟨_, rfl⟩
  | cons r2 rs => exact ⟨_, rfl⟩

theorem parseElems_succ (fuel : Nat) (acc : List JSON) (ts : List Token) :
    parseElems (fuel + 1) acc ts =
      match parseValue fuel ts with
      | none => none
      | some (v, rest) =>
        match rest with
        | Token.comma :: rest2 => parseElems fuel (acc ++ [v]) rest2
        | Token.rbracket :: rest2 => some (JSON.arr (acc ++ [v]), rest2)
        | _ => none := by
  rw [parseElems]

theorem parseElems_elems (rs : List jsonContainer) (hne : rs ≠ []) (acc : List JSON)
    (rest : List Token) (fuel : Nat) (hf : rs.length + 7 ≤ fuel) :
    parseElems fuel acc (elemsTokens rs ++ Token.rbracket :: rest) =
      some (JSON.arr (acc ++ rs.map jsonContainer.toJSON), rest) := by
  induction rs generalizing acc fuel with
  | nil => exact absurd rfl hne
  | cons r rs ih =>
    obtain ⟨f, rfl⟩ : ∃ f, fuel = f + 1 + 1 + 1 + 1 + 1 + 1 + 1 + 1 := ⟨fuel - 8, by
      simp only [List.length_cons] at hf; omega⟩
    cases rs with
    | nil =>
      rw [parseElems_succ, elemsTokens, parseValue_object]
      simp
    | cons r2 rs =>
      have ih2 := ih (by simp) (acc ++ [r.toJSON]) (f + 1 + 1 + 1 + 1 + 1 + 1 + 1) (by
        simp only [List.length_cons] at hf ⊢; omega)
      rw [parseElems_succ, elemsTokens, List.append_assoc, parseValue_object]
      simp only [List.cons_append]
      rw [ih2]
      simp

/-- Decoding the document written for a record sequence gives back the array
of the records' objects. -/
theorem decode_MarshalIndent (rs : List jsonContainer) :
    decode (MarshalIndent rs ++ "\n") = some (JSON.arr (rs.map jsonContainer.toJSON)) := by
  unfold decode
  rw [lex_of_Lexes _ _ (lexes_document rs)]
  cases rs with
  | nil => rfl
  | cons r rs =>
    have hlen := elemsTokens_length (r :: rs)
    obtain ⟨tail, htail⟩ := elemsTokens_head r rs
    have hstep : parseValue ((docTokens (r :: rs)).length + 1) (docTokens (r :: rs)) =
        parseElems (docTokens (r :: rs)).length [] (elemsTokens (r :: rs) ++ [Token.rbracket]) := by
      simp only [docTokens, htail, List.cons_append, parseValue]
    simp only [hstep]
    rw [parseElems_elems (r :: rs) (by simp) [] [] _ (by
      simp only [docTokens, List.length_cons, List.length_append, List.length_nil] at hlen ⊢
      omega)]
    simp

/-! ## Text mode -/

theorem textOut_rows (fl : Flags) (hj : fl.json = false) (hq : fl.quiet = false)
    (rs : List jsonContainer) (i : Nat) (h : fl.noheading = true ∨ i ≠ 0) :
    textOut fl i rs = String.join (rs.map (rowLine fl)) := by
  induction rs generalizing i with
  | nil => rfl
  | cons r rs ih =>
    rw [textOut, ih (i + 1) (Or.inr (by omega)), List.map_cons, join_cons]
    rcases h with h | h
    · simp [listText, hj, hq, h]
    · simp [listText, hj, hq, h]

theorem textOut_header (fl : Flags) (hj : fl.json = false) (hq : fl.quiet = false)
    (hh : fl.noheading = false) (r : jsonContainer) (rs : List jsonContainer) :
    textOut fl 0 (r :: rs) = headerLine fl ++ String.join ((r :: rs).map (rowLine fl)) := by
  rw [textOut, textOut_rows fl hj hq rs 1 (Or.inr (by omega)), List.map_cons, join_cons]
  simp [listText, hj, hq, hh, String.append_assoc]

/-! ## The verbs -/

theorem padRight_data (w : Nat) (s : String) :
    (padRight w s).data = s.data ++ List.replicate (w - s.length) ' ' := by
  simp [padRight, String.data_append]

theorem padRight_length (w : Nat) (s : String) : (padRight w s).length = max w s.length := by
  have h : (padRight w s).length = (padRight w s).data.length := rfl
  have h2 : s.length = s.data.length := rfl
  rw [h, padRight_data, List.length_append, List.length_replicate, ← h2]
  omega

theorem padClip_data (s : String) :
    (padClip 12 12 s).data = s.data.take 12 ++ List.replicate (12 - s.length) ' ' := by
  have h2 : s.length = s.data.length := rfl
  have h3 : (clip 12 s).length = min 12 s.data.length := by
    show (s.data.take 12).length = _
    rw [List.length_take]
  rw [padClip, padRight_data, h3, h2]
  have h4 : 12 - min 12 s.data.length = 12 - s.data.length := by omega
  rw [h4]
  rfl

theorem padClip_length (s : String) : (padClip 12 12 s).length = 12 := by
  have h : (padClip 12 12 s).length = (padClip 12 12 s).data.length := rfl
  have h2 : s.length = s.data.length := rfl
  rw [h, padClip_data, List.length_append, List.length_replicate, List.length_take, h2]
  omega

/-- What one call of `list` writes when no header is due or wanted. -/
theorem list_stdout (fl : Flags) (n : Nat) (containerID imageID image container : String)
    (isBuilder : Bool) (st : State) (hj : fl.json = false) :
    (list fl n containerID imageID image container isBuilder st).stdout =
      st.stdout ++ ((if n = 0 ∧ fl.noheading = false ∧ fl.quiet = false then headerLine fl else "")
        ++ rowLine fl (jsonContainer.mk containerID isBuilder imageID image container)) := by
  rw [list_eq]
  by_cases hn : n = 0 <;> cases hh : fl.noheading <;> cases hq : fl.quiet <;>
  simp [listText, hj, hn, hh, hq]

/-! ## Runs and their records -/

theorem resolveAll_cacheOK (env : Env) (store : Store) (ids : List String) (st : State)
    (hc : CacheOK store st.seenImages) :
    CacheOK store (resolveAll env store ids st).seenImages := by
  induction ids generalizing st with
  | nil => exact hc
  | cons id ids ih => exact ih _ (imageNameForID_cacheOK env store id st hc)

theorem expectedRecords_resolved (env : Env) (store : Store) (fl : Flags)
    (builders : List Builder) (containers : List Container) (r : jsonContainer)
    (hr : r ∈ expectedRecords env store fl builders containers) :
    r.ImageName = resolveName env store r.ImageID := by
  unfold expectedRecords at hr
  split at hr
  · obtain ⟨c, _, rfl⟩ := List.mem_map.mp hr
    rfl
  · obtain ⟨b, _, rfl⟩ := List.mem_map.mp hr
    rfl

/-- Every run either fails having done nothing, or is a successful run over
the records expected from its inventories. -/
theorem containersCmd_cases_records (env : Env) (fl : Flags) :
    (∃ e, containersCmd env fl = { st := State.init, err := some e }) ∨
    (∃ store builders containers, env.getStore fl = .ok store ∧
      env.openBuilders store = .ok builders ∧
      (fl.all = true → store.Containers = .ok containers) ∧
      containersCmd env fl =
        finish fl (emit fl 0 (expectedRecords env store fl builders containers)
          (resolveAll env store
            ((expectedRecords env store fl builders containers).map (fun r => r.ImageID))
            State.init))) := by
  cases hv : env.validateFlags fl with
  | some e => left; exact ⟨e, by simp [containersCmd, hv]⟩
  | none =>
    cases hs : env.getStore fl with
    | error e => left; exact ⟨e, by simp [containersCmd, hv, hs]⟩
    | ok store =>
      cases hb : env.openBuilders store with
      | error e =>
        left
        exact ⟨Wrapf e "error reading build containers", by simp only [containersCmd, hv, hs, hb]⟩
      | ok builders =>
        cases hall : fl.all with
        | false =>
          right
          exact ⟨store, builders, [], rfl, hb, by simp,
            containersCmd_ok env fl store builders [] hv hs hb (by simp [hall])⟩
        | true =>
          cases hc : store.Containers with
          | error e =>
            left
            exact ⟨Wrapf e "error reading list of all containers", by
              simp only [containersCmd, hv, hs, hb, hall, hc, Bool.not_true,
                Bool.false_eq_true, if_false]⟩
          | ok containers =>
            right
            exact ⟨store, builders, containers, rfl, hb, fun _ => hc,
              containersCmd_ok env fl store builders containers hv hs hb (fun _ => hc)⟩

theorem idFields_toJSON (rs : List jsonContainer) :
    idFields (JSON.arr (rs.map jsonContainer.toJSON)) = rs.map (fun r => r.ID) := by
  induction rs with
  | nil => rfl
  | cons r rs ih =>
    simp only [idFields, List.map_cons] at ih ⊢
    rw [List.filterMap_cons]
    simp [idField, jsonContainer.toJSON, List.lookup, ih]

/-! ## Columns -/

theorem field_split (line : String) (p f r : List Char) (off len : Nat)
    (h : line.data = p ++ (f ++ r)) (hp : p.length = off) (hf : f.length = len) :
    field line off len = String.mk f := by
  rw [field, h, List.drop_left' hp, List.take_left' hf]

theorem fieldFrom_split (line : String) (p r : List Char) (off : Nat)
    (h : line.data = p ++ r) (hp : p.length = off) : fieldFrom line off = String.mk r := by
  rw [fieldFrom, h, List.drop_left' hp]

/-- A line made of five fields and four separators: where each field sits. -/
theorem five_fields (line : String) (a b c d e s1 s2 s3 s4 : List Char)
    (h : line.data = a ++ (s1 ++ (b ++ (s2 ++ (c ++ (s3 ++ (d ++ (s4 ++ e)))))))) :
    field line 0 a.length = String.mk a ∧
    field line (a.length + s1.length) b.length = String.mk b ∧
    field line (a.length + s1.length + b.length + s2.length) c.length = String.mk c ∧
    field line (a.length + s1.length + b.length + s2.length + c.length + s3.length) d.length =
      String.mk d ∧
    fieldFrom line
      (a.length + s1.length + b.length + s2.length + c.length + s3.length + d.length + s4.length) =
      String.mk e := by
  refine ⟨?_, ?_, ?_, ?_, ?_⟩
  · exact field_split line [] a (s1 ++ (b ++ (s2 ++ (c ++ (s3 ++ (d ++ (s4 ++ e))))))) 0 a.length
      (by rw [h]; rfl) rfl rfl
  · exact field_split line (a ++ s1) b (s2 ++ (c ++ (s3 ++ (d ++ (s4 ++ e))))) _ b.length
      (by rw [h]; simp only [List.append_assoc]) (by simp) rfl
  · exact field_split line (a ++ (s1 ++ (b ++ s2))) c (s3 ++ (d ++ (s4 ++ e))) _ c.length
      (by rw [h]; simp only [List.append_assoc]) (by simp; omega) rfl
  · exact field_split line (a ++ (s1 ++ (b ++ (s2 ++ (c ++ s3))))) d (s4 ++ e) _ d.length
      (by rw [h]; simp only [List.append_assoc]) (by simp; omega) rfl
  · exact fieldFrom_split line (a ++ (s1 ++ (b ++ (s2 ++ (c ++ (s3 ++ (d ++ s4))))))) e _
      (by rw [h]; simp only [List.append_assoc]) (by simp; omega)

theorem padClip_data_length (s : String) : (padClip 12 12 s).data.length = 12 :=
  padClip_length s

theorem padRight_data_length (w : Nat) (s : String) (h : s.length ≤ w) :
    (padRight w s).data.length = w := by
  have h2 : (padRight w s).data.length = (padRight w s).length := rfl
  rw [h2, padRight_length]
  omega

theorem builderValue_data_length (b : Bool) :
    (padRight 8 (if b then "   *" else "")).data.length = 8 := by
  cases b <;> rfl

theorem builderValue_eq (b : Bool) :
    padRight 8 (if b then "   *" else "") = if b then "   *    " else "        " := by
  cases b <;> rfl

theorem fmtRowTrunc_data (a b c d e : String) :
    (fmtRowTrunc a b c d e).data =
      (padClip 12 12 a).data ++ ([' ', ' '] ++ ((padRight 8 b).data ++ ([' '] ++
        ((padClip 12 12 c).data ++ ([' '] ++ ((padRight 32 d).data ++ ([' '] ++
          (e.data ++ ['\n'])))))))) := by
  simp [fmtRowTrunc, String.data_append]

theorem fmtWide_data (a b c d e : String) :
    (fmtWide a b c d e).data =
      (padRight 64 a).data ++ ([' '] ++ ((padRight 8 b).data ++ ([' '] ++
        ((padRight 64 c).data ++ ([' '] ++ ((padRight 32 d).data ++ ([' '] ++
          (e.data ++ ['\n'])))))))) := by
  simp [fmtWide, String.data_append]

/-! ## The claims -/

/-- C1: with `all=true`, when both inventories load, the run succeeds and the
records passed to `list` are exactly one per storage container, in storage
order: its ID, whether some builder-inventory entry carries that ID, its image
ID, the resolved image name, and its first name or `""`; so there are as many
rows as storage containers, and standard output is the rendering of these
records. -/
theorem all_mode_records (env : Env) (fl : Flags) (store : Store) (builders : List Builder)
    (containers : List Container)
    (hv : env.validateFlags fl = none) (hs : env.getStore fl = .ok store)
    (hb : env.openBuilders store = .ok builders)
    (hc : store.Containers = .ok containers) (hall : fl.all = true) :
    (containersCmd env fl).err = none ∧
    (containersCmd env fl).st.listed =
      containers.map (fun c =>
        jsonContainer.mk c.ID (decide (∃ b ∈ builders, b.ContainerID = c.ID)) c.ImageID
          (resolveName env store c.ImageID) (c.Names.headD "")) ∧
    (containersCmd env fl).st.listed.length = containers.length ∧
    (containersCmd env fl).st.stdout = output fl (containersCmd env fl).st.listed := by
  have hrec : expectedRecords env store fl builders containers =
      containers.map (fun c =>
        jsonContainer.mk c.ID (decide (∃ b ∈ builders, b.ContainerID = c.ID)) c.ImageID
          (resolveName env store c.ImageID) (c.Names.headD "")) := by
    unfold expectedRecords
    rw [if_pos hall]
    exact List.map_congr_left (fun c _ => storageRecord_eq env store builders c)
  rw [containersCmd_ok env fl store builders containers hv hs hb (fun _ => hc), finish_emit, hrec]
  exact ⟨rfl, rfl, by simp, rfl⟩

theorem all_mode_records_witness :
    scenarioEnv.validateFlags ⟨true, false, false, false, false⟩ = none ∧
    scenarioEnv.getStore ⟨true, false, false, false, false⟩ = .ok scenarioStore ∧
    scenarioEnv.openBuilders scenarioStore = .ok scenarioBuilders ∧
    scenarioStore.Containers = .ok scenarioContainers ∧
    (containersCmd scenarioEnv ⟨true, false, false, false, false⟩).err = none ∧
    (containersCmd scenarioEnv ⟨true, false, false, false, false⟩).st.listed =
      scenarioContainers.map (fun c =>
        jsonContainer.mk c.ID (decide (∃ b ∈ scenarioBuilders, b.ContainerID = c.ID)) c.ImageID
          (resolveName scenarioEnv scenarioStore c.ImageID) (c.Names.headD "")) ∧
    (containersCmd scenarioEnv ⟨true, false, false, false, false⟩).st.listed.length =
      scenarioContainers.length ∧
    (containersCmd scenarioEnv ⟨true, false, false, false, false⟩).st.stdout =
      output ⟨true, false, false, false, false⟩
        (containersCmd scenarioEnv ⟨true, false, false, false, false⟩).st.listed :=
  ⟨rfl, rfl, rfl, rfl,
    all_mode_records scenarioEnv ⟨true, false, false, false, false⟩ scenarioStore
      scenarioBuilders scenarioContainers rfl rfl rfl rfl rfl⟩

/-- C2: with `all=false`, when the builder inventory loads, the run succeeds
and the records passed to `list` are exactly one per builder-inventory entry,
in inventory order, carrying the entry's container ID, image ID and container
name (and the resolved image name), every one with the builder flag true; so
there are as many rows as entries, and standard output is the rendering of
these records. -/
theorem default_mode_records (env : Env) (fl : Flags) (store : Store) (builders : List Builder)
    (hv : env.validateFlags fl = none) (hs : env.getStore fl = .ok store)
    (hb : env.openBuilders store = .ok builders) (hall : fl.all = false) :
    (containersCmd env fl).err = none ∧
    (containersCmd env fl).st.listed =
      builders.map (fun b =>
        jsonContainer.mk b.ContainerID true b.FromImageID
          (resolveName env store b.FromImageID) b.Container) ∧
    (∀ r ∈ (containersCmd env fl).st.listed, r.Builder = true) ∧
    (containersCmd env fl).st.listed.length = builders.length ∧
    (containersCmd env fl).st.stdout = output fl (containersCmd env fl).st.listed := by
  have hrec : expectedRecords env store fl builders [] =
      builders.map (fun b =>
        jsonContainer.mk b.ContainerID true b.FromImageID
          (resolveName env store b.FromImageID) b.Container) := by
    unfold expectedRecords
    rw [hall]
    rfl
  rw [containersCmd_ok env fl store builders [] hv hs hb (by simp [hall]), finish_emit, hrec]
  refine ⟨rfl, rfl, ?_, by simp, rfl⟩
  intro r hr
  obtain ⟨b, _, rfl⟩ := List.mem_map.mp hr
  rfl

theorem default_mode_records_witness :
    scenarioEnv.validateFlags ⟨false, false, false, false, false⟩ = none ∧
    scenarioEnv.getStore ⟨false, false, false, false, false⟩ = .ok scenarioStore ∧
    scenarioEnv.openBuilders scenarioStore = .ok scenarioBuilders ∧
    (containersCmd scenarioEnv ⟨false, false, false, false, false⟩).err = none ∧
    (containersCmd scenarioEnv ⟨false, false, false, false, false⟩).st.listed =
      scenarioBuilders.map (fun b =>
        jsonContainer.mk b.ContainerID true b.FromImageID
          (resolveName scenarioEnv scenarioStore b.FromImageID) b.Container) ∧
    (∀ r ∈ (containersCmd scenarioEnv ⟨false, false, false, false, false⟩).st.listed,
      r.Builder = true) ∧
    (containersCmd scenarioEnv ⟨false, false, false, false, false⟩).st.listed.length =
      scenarioBuilders.length ∧
    (containersCmd scenarioEnv ⟨false, false, false, false, false⟩).st.stdout =
      output ⟨false, false, false, false, false⟩
        (containersCmd scenarioEnv ⟨false, false, false, false, false⟩).st.listed :=
  ⟨rfl, rfl, rfl,
    default_mode_records scenarioEnv ⟨false, false, false, false, false⟩ scenarioStore
      scenarioBuilders rfl rfl rfl rfl⟩

/-- C3, as stated, fails: two containers share the image `i2`, whose lookup
fails, and `store.Image` is called for `i2` twice in one run. -/
theorem failed_lookup_repeated :
    "i2" ≠ "" ∧
    (containersCmd danglingEnv ⟨true, false, false, false, false⟩).st.imageCalls = ["i2", "i2"] ∧
    ¬ ((containersCmd danglingEnv ⟨true, false, false, false, false⟩).st.imageCalls.count "i2"
        ≤ 1) := by
  decide

/-- C3, amended: within one run, an image ID whose lookup returns at least one
name is looked up at most once, however many records carry it; the empty image
ID is never looked up; and a non-empty image ID whose lookup fails or returns no
name is not cached: it is looked up once for each record that carries it. -/
theorem named_lookup_at_most_once (env : Env) (fl : Flags) (store : Store) (id : String)
    (hs : env.getStore fl = .ok store) :
    (hasName store id = true → (containersCmd env fl).st.imageCalls.count id ≤ 1) ∧
    (id = "" → (containersCmd env fl).st.imageCalls.count id = 0) ∧
    (id ≠ "" → hasName store id = false →
      (containersCmd env fl).st.imageCalls.count id =
        ((containersCmd env fl).st.listed.map (fun r => r.ImageID)).count id) := by
  rcases containersCmd_cases env fl with ⟨e2, h2⟩ | ⟨store2, rs, hs2, h2⟩
  · rw [h2]
    simp [State.init]
  · have hst : store2 = store := by
      rw [hs] at hs2
      injection hs2 with h
      exact h.symm
    subst hst
    rw [h2, finish_emit]
    have hcount := resolveAll_calls env store2 id (rs.map (fun r => r.ImageID)) State.init
      (cacheOK_nil store2)
    refine ⟨fun hn => ?_, fun hid => ?_, fun hid hn => ?_⟩
    · show List.count id (resolveAll env store2 _ State.init).imageCalls ≤ 1
      rw [hcount]
      simp only [State.init, List.count_nil, hn]
      split_ifs <;> omega
    · show List.count id (resolveAll env store2 _ State.init).imageCalls = 0
      rw [hcount]
      simp [State.init, hid]
    · show List.count id (resolveAll env store2 _ State.init).imageCalls = _
      rw [hcount]
      simp [State.init, hid, hn]

theorem named_lookup_at_most_once_witness :
    scenarioEnv.getStore ⟨true, false, false, false, false⟩ = .ok scenarioStore ∧
    ((hasName scenarioStore "i1" = true →
      (containersCmd scenarioEnv ⟨true, false, false, false, false⟩).st.imageCalls.count "i1"
        ≤ 1) ∧
    ("i1" = "" →
      (containersCmd scenarioEnv ⟨true, false, false, false, false⟩).st.imageCalls.count "i1"
        = 0) ∧
    ("i1" ≠ "" → hasName scenarioStore "i1" = false →
      (containersCmd scenarioEnv ⟨true, false, false, false, false⟩).st.imageCalls.count "i1" =
        ((containersCmd scenarioEnv ⟨true, false, false, false, false⟩).st.listed.map
          (fun r => r.ImageID)).count "i1")) :=
  ⟨rfl, named_lookup_at_most_once scenarioEnv ⟨true, false, false, false, false⟩ scenarioStore
    "i1" rfl⟩

/-- C4: once the flags are valid and the store is open, the run fails exactly
when the builder inventory fails to load (whatever the mode) or `all=true` and
the storage inventory fails to enumerate; with `all=false` the storage
inventory is not consulted, so its failure does not matter; the returned error
is the underlying cause wrapped with the message naming the source, so that it
prints as that message, a colon and the cause, and has the cause's cause. -/
theorem failure_iff (env : Env) (fl : Flags) (store : Store)
    (hv : env.validateFlags fl = none) (hs : env.getStore fl = .ok store) :
    ((containersCmd env fl).err ≠ none ↔
      ((∃ e, env.openBuilders store = .error e) ∨
       (fl.all = true ∧ ∃ e, store.Containers = .error e))) ∧
    (∀ e, env.openBuilders store = .error e →
      (containersCmd env fl).err = some (Error.wrapped e "error reading build containers")) ∧
    (∀ bs e, env.openBuilders store = .ok bs → fl.all = true → store.Containers = .error e →
      (containersCmd env fl).err =
        some (Error.wrapped e "error reading list of all containers")) ∧
    (∀ bs, env.openBuilders store = .ok bs → fl.all = false →
      (containersCmd env fl).err = none) ∧
    (∀ e msg, (Wrapf e msg).message = msg ++ ": " ++ e.message ∧ (Wrapf e msg).Cause = e.Cause) := by
  have hfail : ∀ e, env.openBuilders store = .error e →
      (containersCmd env fl).err = some (Error.wrapped e "error reading build containers") := by
    intro e he
    simp only [containersCmd, hv, hs, he, Wrapf]
  have hfail2 : ∀ bs e, env.openBuilders store = .ok bs → fl.all = true →
      store.Containers = .error e →
      (containersCmd env fl).err =
        some (Error.wrapped e "error reading list of all containers") := by
    intro bs e hb hall hc
    simp only [containersCmd, hv, hs, hb, hall, hc, Wrapf, Bool.not_true, Bool.false_eq_true,
      if_false]
  have hok : ∀ bs, env.openBuilders store = .ok bs → fl.all = false →
      (containersCmd env fl).err = none := by
    intro bs hb hall
    rw [containersCmd_ok env fl store bs [] hv hs hb (by simp [hall]), finish_emit]
  refine ⟨?_, hfail, hfail2, hok, fun e msg => ⟨rfl, rfl⟩⟩
  constructor
  · intro herr
    cases hb : env.openBuilders store with
    | error e => exact Or.inl ⟨e, rfl⟩
    | ok bs =>
      right
      cases hall : fl.all with
      | false => exact absurd (hok bs hb hall) herr
      | true =>
        cases hc : store.Containers with
        | error e => exact ⟨rfl, e, rfl⟩
        | ok cs =>
          exfalso
          apply herr
          rw [containersCmd_ok env fl store bs cs hv hs hb (fun _ => hc), finish_emit]
  · rintro (⟨e, he⟩ | ⟨hall, e, hc⟩)
    · rw [hfail e he]; simp
    · cases hb : env.openBuilders store with
      | error e2 => rw [hfail e2 hb]; simp
      | ok bs => rw [hfail2 bs e hb hall hc]; simp

theorem failure_iff_witness :
    unreadableEnv.validateFlags ⟨false, false, false, false, false⟩ = none ∧
    unreadableEnv.getStore ⟨false, false, false, false, false⟩ = .ok scenarioStore ∧
    (((containersCmd unreadableEnv ⟨false, false, false, false, false⟩).err ≠ none ↔
      ((∃ e, unreadableEnv.openBuilders scenarioStore = .error e) ∨
       ((⟨false, false, false, false, false⟩ : Flags).all = true ∧
        ∃ e, scenarioStore.Containers = .error e))) ∧
    (∀ e, unreadableEnv.openBuilders scenarioStore = .error e →
      (containersCmd unreadableEnv ⟨false, false, false, false, false⟩).err =
        some (Error.wrapped e "error reading build containers")) ∧
    (∀ bs e, unreadableEnv.openBuilders scenarioStore = .ok bs →
      (⟨false, false, false, false, false⟩ : Flags).all = true →
      scenarioStore.Containers = .error e →
      (containersCmd unreadableEnv ⟨false, false, false, false, false⟩).err =
        some (Error.wrapped e "error reading list of all containers")) ∧
    (∀ bs, unreadableEnv.openBuilders scenarioStore = .ok bs →
      (⟨false, false, false, false, false⟩ : Flags).all = false →
      (containersCmd unreadableEnv ⟨false, false, false, false, false⟩).err = none) ∧
    (∀ e msg, (Wrapf e msg).message = msg ++ ": " ++ e.message ∧
      (Wrapf e msg).Cause = e.Cause)) :=
  ⟨rfl, rfl, failure_iff unreadableEnv ⟨false, false, false, false, false⟩ scenarioStore rfl rfl⟩

/-- C5: whenever the run returns an error, nothing at all has been written to
standard output, whatever the flags: no header, no row, no JSON. -/
theorem failure_writes_nothing (env : Env) (fl : Flags) (e : Error)
    (h : (containersCmd env fl).err = some e) :
    (containersCmd env fl).st.stdout = "" := by
  rcases containersCmd_cases env fl with ⟨e2, h2⟩ | ⟨store, rs, _, h2⟩
  · rw [h2]; rfl
  · rw [h2, finish_emit] at h
    simp at h

theorem failure_writes_nothing_witness :
    (containersCmd unreadableEnv ⟨true, true, false, false, false⟩).err =
      some (Error.wrapped (.root "state directory unreadable") "error reading build containers") ∧
    (containersCmd unreadableEnv ⟨true, true, false, false, false⟩).st.stdout = "" :=
  ⟨rfl, failure_writes_nothing unreadableEnv ⟨true, true, false, false, false⟩ _ rfl⟩

/-- C6: when the inventories load, the run succeeds whatever the image lookups
return, every inventory entry is emitted, and every record whose image ID is
non-empty and whose lookup fails or returns an image without names carries the
empty image name. -/
theorem lookup_failure_is_soft (env : Env) (fl : Flags) (store : Store)
    (builders : List Builder) (containers : List Container)
    (hv : env.validateFlags fl = none) (hs : env.getStore fl = .ok store)
    (hb : env.openBuilders store = .ok builders)
    (hc : fl.all = true → store.Containers = .ok containers) :
    (containersCmd env fl).err = none ∧
    (containersCmd env fl).st.listed.map (fun r => r.ID) =
      (if fl.all then containers.map (fun c => c.ID)
       else builders.map (fun b => b.ContainerID)) ∧
    (∀ r ∈ (containersCmd env fl).st.listed, r.ImageID ≠ "" →
      (∀ img, store.Image r.ImageID = .ok img → img.Names = []) → r.ImageName = "") := by
  rw [containersCmd_ok env fl store builders containers hv hs hb hc, finish_emit]
  refine ⟨rfl, ?_, ?_⟩
  · show (expectedRecords env store fl builders containers).map (fun r => r.ID) = _
    unfold expectedRecords
    cases fl.all <;> simp [builderRecord, storageRecord]
  · intro r hr hid hfail
    have hname : r.ImageName = resolveName env store r.ImageID := by
      change r ∈ expectedRecords env store fl builders containers at hr
      unfold expectedRecords at hr
      split at hr
      · obtain ⟨c, _, rfl⟩ := List.mem_map.mp hr
        rfl
      · obtain ⟨b, _, rfl⟩ := List.mem_map.mp hr
        rfl
    rw [hname]
    apply resolveName_of_unnamed env store r.ImageID hid
    unfold hasName
    cases hi : store.Image r.ImageID with
    | error e => rfl
    | ok img => simp [hfail img hi]

theorem lookup_failure_is_soft_witness :
    scenarioEnv.validateFlags ⟨true, false, false, false, false⟩ = none ∧
    scenarioEnv.getStore ⟨true, false, false, false, false⟩ = .ok scenarioStore ∧
    scenarioEnv.openBuilders scenarioStore = .ok scenarioBuilders ∧
    ((⟨true, false, false, false, false⟩ : Flags).all = true →
      scenarioStore.Containers = .ok scenarioContainers) ∧
    ((containersCmd scenarioEnv ⟨true, false, false, false, false⟩).err = none ∧
    (containersCmd scenarioEnv ⟨true, false, false, false, false⟩).st.listed.map (fun r => r.ID) =
      (if (⟨true, false, false, false, false⟩ : Flags).all then
         scenarioContainers.map (fun c => c.ID)
       else scenarioBuilders.map (fun b => b.ContainerID)) ∧
    (∀ r ∈ (containersCmd scenarioEnv ⟨true, false, false, false, false⟩).st.listed,
      r.ImageID ≠ "" →
      (∀ img, scenarioStore.Image r.ImageID = .ok img → img.Names = []) → r.ImageName = "")) :=
  ⟨rfl, rfl, rfl, fun _ => rfl,
    lookup_failure_is_soft scenarioEnv ⟨true, false, false, false, false⟩ scenarioStore
      scenarioBuilders scenarioContainers rfl rfl rfl (fun _ => rfl)⟩

/-- C7: in every state, resolving the empty image ID returns
`buildah.BaseImageFakeName`, calls `store.Image` not at all and leaves the
cache, indeed the whole state, unchanged. -/
theorem empty_id_is_base_marker (env : Env) (store : Store) (st : State) :
    (imageNameForID env store "" st).1 = env.BaseImageFakeName ∧
    (imageNameForID env store "" st).2.imageCalls = st.imageCalls ∧
    (imageNameForID env store "" st).2.seenImages = st.seenImages ∧
    (imageNameForID env store "" st).2 = st := by
  rw [imageNameForID_empty]
  exact ⟨rfl, rfl, rfl, rfl⟩

/-- C8: in text mode with `quiet=true`, whatever `all`, `noheading` and
`notruncate` are, standard output is exactly one line per record passed to
`list`, in order, each line being the record's complete container ID followed
by a newline; no header is printed. -/
theorem quiet_prints_ids (env : Env) (fl : Flags) (hj : fl.json = false) (hq : fl.quiet = true) :
    (containersCmd env fl).st.stdout =
      String.join ((containersCmd env fl).st.listed.map (fun r => r.ID ++ "\n")) ∧
    (∀ (rs : List jsonContainer) (st : State),
      (emit fl 0 rs st).stdout = st.stdout ++ String.join (rs.map (fun r => r.ID ++ "\n"))) := by
  constructor
  · rcases containersCmd_cases env fl with ⟨e2, h2⟩ | ⟨store, rs, _, h2⟩
    · rw [h2]; rfl
    · rw [h2, finish_emit]
      simp only [output, hj, Bool.false_eq_true, if_false]
      exact textOut_quiet fl hj hq rs 0
  · intro rs st
    rw [emit_eq, textOut_quiet fl hj hq rs 0]

theorem quiet_prints_ids_witness :
    (⟨true, false, false, false, true⟩ : Flags).json = false ∧
    (⟨true, false, false, false, true⟩ : Flags).quiet = true ∧
    ((containersCmd scenarioEnv ⟨true, false, false, false, true⟩).st.stdout =
      String.join ((containersCmd scenarioEnv ⟨true, false, false, false, true⟩).st.listed.map
        (fun r => r.ID ++ "\n")) ∧
    (∀ (rs : List jsonContainer) (st : State),
      (emit ⟨true, false, false, false, true⟩ 0 rs st).stdout =
        st.stdout ++ String.join (rs.map (fun r => r.ID ++ "\n")))) :=
  ⟨rfl, rfl, quiet_prints_ids scenarioEnv ⟨true, false, false, false, true⟩ rfl rfl⟩

/-- C9: the JSON output round-trips.  Decoding the document written for any
record sequence gives an array with one object per record, in order, whose
members `id`, `builder`, `imageid`, `imagename` and `containername` are the
record's container ID, builder flag, image ID, image name and container name;
so in JSON mode decoding the standard output of a successful run gives back
exactly the records passed to `list`. -/
theorem json_round_trip (env : Env) (fl : Flags) (hj : fl.json = true)
    (hok : (containersCmd env fl).err = none) :
    decode (containersCmd env fl).st.stdout =
      some (JSON.arr ((containersCmd env fl).st.listed.map (fun r =>
        JSON.obj [("id", JSON.str r.ID), ("builder", JSON.bool r.Builder),
          ("imageid", JSON.str r.ImageID), ("imagename", JSON.str r.ImageName),
          ("containername", JSON.str r.ContainerName)]))) ∧
    (∀ rs : List jsonContainer,
      decode (MarshalIndent rs ++ "\n") =
        some (JSON.arr (rs.map (fun r =>
          JSON.obj [("id", JSON.str r.ID), ("builder", JSON.bool r.Builder),
            ("imageid", JSON.str r.ImageID), ("imagename", JSON.str r.ImageName),
            ("containername", JSON.str r.ContainerName)])))) := by
  refine ⟨?_, decode_MarshalIndent⟩
  rcases containersCmd_cases env fl with ⟨e2, h2⟩ | ⟨store, rs, _, h2⟩
  · rw [h2] at hok
    simp at hok
  · rw [h2, finish_emit]
    simp only [output, hj, if_true]
    exact decode_MarshalIndent rs

theorem json_round_trip_witness :
    (⟨true, true, false, false, false⟩ : Flags).json = true ∧
    (containersCmd scenarioEnv ⟨true, true, false, false, false⟩).err = none ∧
    (decode (containersCmd scenarioEnv ⟨true, true, false, false, false⟩).st.stdout =
      some (JSON.arr ((containersCmd scenarioEnv ⟨true, true, false, false, false⟩).st.listed.map
        (fun r =>
          JSON.obj [("id", JSON.str r.ID), ("builder", JSON.bool r.Builder),
            ("imageid", JSON.str r.ImageID), ("imagename", JSON.str r.ImageName),
            ("containername", JSON.str r.ContainerName)]))) ∧
    (∀ rs : List jsonContainer,
      decode (MarshalIndent rs ++ "\n") =
        some (JSON.arr (rs.map (fun r =>
          JSON.obj [("id", JSON.str r.ID), ("builder", JSON.bool r.Builder),
            ("imageid", JSON.str r.ImageID), ("imagename", JSON.str r.ImageName),
            ("containername", JSON.str r.ContainerName)]))))) :=
  ⟨rfl, rfl, json_round_trip scenarioEnv ⟨true, true, false, false, false⟩ rfl rfl⟩

/-- C10: with `json=true` the run does not depend on `quiet`, `noheading` and
`notruncate`: two runs on the same input that differ only in these three flags
write the same standard output and return the same error, and what is written
is the JSON document of the records followed by a newline (nothing at all when
the run fails): no table header, no table row. -/
theorem json_ignores_text_flags (env : Env) (fl1 fl2 : Flags) (store : Store)
    (hj1 : fl1.json = true) (hj2 : fl2.json = true) (hall : fl1.all = fl2.all)
    (hv1 : env.validateFlags fl1 = none) (hv2 : env.validateFlags fl2 = none)
    (hs1 : env.getStore fl1 = .ok store) (hs2 : env.getStore fl2 = .ok store) :
    (containersCmd env fl1).st.stdout = (containersCmd env fl2).st.stdout ∧
    (containersCmd env fl1).err = (containersCmd env fl2).err ∧
    (containersCmd env fl1).st.stdout =
      (match (containersCmd env fl1).err with
        | none => MarshalIndent (containersCmd env fl1).st.listed ++ "\n"
        | some _ => "") := by
  cases hb : env.openBuilders store with
  | error e =>
    have h1 : containersCmd env fl1 =
        { st := State.init, err := some (Wrapf e "error reading build containers") } := by
      simp only [containersCmd, hv1, hs1, hb]
    have h2 : containersCmd env fl2 =
        { st := State.init, err := some (Wrapf e "error reading build containers") } := by
      simp only [containersCmd, hv2, hs2, hb]
    rw [h1, h2]
    exact ⟨rfl, rfl, rfl⟩
  | ok builders =>
    by_cases hfail : fl1.all = true ∧ ∃ e, store.Containers = .error e
    · obtain ⟨ha, e, hc⟩ := hfail
      have h1 : containersCmd env fl1 =
          { st := State.init, err := some (Wrapf e "error reading list of all containers") } := by
        simp only [containersCmd, hv1, hs1, hb, ha, hc, Bool.not_true, Bool.false_eq_true,
          if_false]
      have h2 : containersCmd env fl2 =
          { st := State.init, err := some (Wrapf e "error reading list of all containers") } := by
        simp only [containersCmd, hv2, hs2, hb, ← hall, ha, hc, Bool.not_true,
          Bool.false_eq_true, if_false]
      rw [h1, h2]
      exact ⟨rfl, rfl, rfl⟩
    · have hex : ∃ cs, fl1.all = true → store.Containers = .ok cs := by
        cases hc : store.Containers with
        | ok cs => exact ⟨cs, fun _ => rfl⟩
        | error e =>
          refine ⟨[], fun ha => ?_⟩
          exact absurd ⟨ha, e, hc⟩ hfail
      obtain ⟨cs, hc⟩ := hex
      have hrec : expectedRecords env store fl2 builders cs =
          expectedRecords env store fl1 builders cs := by
        unfold expectedRecords
        rw [hall]
      rw [containersCmd_ok env fl1 store builders cs hv1 hs1 hb hc,
        containersCmd_ok env fl2 store builders cs hv2 hs2 hb (by rw [← hall]; exact hc),
        finish_emit, finish_emit, hrec]
      simp [output, hj1, hj2]

theorem json_ignores_text_flags_witness :
    (⟨true, true, false, false, false⟩ : Flags).json = true ∧
    (⟨true, true, true, true, true⟩ : Flags).json = true ∧
    (⟨true, true, false, false, false⟩ : Flags).all = (⟨true, true, true, true, true⟩ : Flags).all ∧
    scenarioEnv.validateFlags ⟨true, true, false, false, false⟩ = none ∧
    scenarioEnv.validateFlags ⟨true, true, true, true, true⟩ = none ∧
    scenarioEnv.getStore ⟨true, true, false, false, false⟩ = .ok scenarioStore ∧
    scenarioEnv.getStore ⟨true, true, true, true, true⟩ = .ok scenarioStore ∧
    ((containersCmd scenarioEnv ⟨true, true, false, false, false⟩).st.stdout =
      (containersCmd scenarioEnv ⟨true, true, true, true, true⟩).st.stdout ∧
    (containersCmd scenarioEnv ⟨true, true, false, false, false⟩).err =
      (containersCmd scenarioEnv ⟨true, true, true, true, true⟩).err ∧
    (containersCmd scenarioEnv ⟨true, true, false, false, false⟩).st.stdout =
      (match (containersCmd scenarioEnv ⟨true, true, false, false, false⟩).err with
        | none =>
          MarshalIndent (containersCmd scenarioEnv ⟨true, true, false, false, false⟩).st.listed
            ++ "\n"
        | some _ => "")) :=
  ⟨rfl, rfl, rfl, rfl, rfl, rfl, rfl,
    json_ignores_text_flags scenarioEnv ⟨true, true, false, false, false⟩
      ⟨true, true, true, true, true⟩ scenarioStore rfl rfl rfl rfl rfl rfl rfl⟩

/-- C11: in text mode with `quiet=false`: when `noheading=false`, the output
for a non-empty record sequence is the header line followed by one row line per
record, in order (the header comes once, before the first row); when
`noheading=true` the output is the row lines alone.  This holds for every
record sequence handed to `list`, and so for the standard output of every
run. -/
theorem header_once_then_rows (env : Env) (fl : Flags) (hj : fl.json = false)
    (hq : fl.quiet = false) :
    (fl.noheading = false → ∀ (r : jsonContainer) (rs : List jsonContainer) (st : State),
      (emit fl 0 (r :: rs) st).stdout =
        st.stdout ++ (headerLine fl ++ String.join ((r :: rs).map (rowLine fl)))) ∧
    (fl.noheading = true → ∀ (rs : List jsonContainer) (st : State),
      (emit fl 0 rs st).stdout = st.stdout ++ String.join (rs.map (rowLine fl))) ∧
    (fl.noheading = false → (containersCmd env fl).st.listed ≠ [] →
      (containersCmd env fl).st.stdout =
        headerLine fl ++ String.join ((containersCmd env fl).st.listed.map (rowLine fl))) ∧
    (fl.noheading = true →
      (containersCmd env fl).st.stdout =
        String.join ((containersCmd env fl).st.listed.map (rowLine fl))) := by
  refine ⟨fun hh r rs st => ?_, fun hh rs st => ?_, fun hh hne => ?_, fun hh => ?_⟩
  · rw [emit_eq, textOut_header fl hj hq hh]
  · rw [emit_eq, textOut_rows fl hj hq rs 0 (Or.inl hh)]
  · rcases containersCmd_cases env fl with ⟨e2, h2⟩ | ⟨store, rs, _, h2⟩
    · rw [h2] at hne
      exact absurd rfl hne
    · rw [h2, finish_emit] at hne ⊢
      simp only [output, hj, Bool.false_eq_true, if_false]
      cases rs with
      | nil => exact absurd rfl hne
      | cons r rs => exact textOut_header fl hj hq hh r rs
  · rcases containersCmd_cases env fl with ⟨e2, h2⟩ | ⟨store, rs, _, h2⟩
    · rw [h2]; rfl
    · rw [h2, finish_emit]
      simp only [output, hj, Bool.false_eq_true, if_false]
      exact textOut_rows fl hj hq rs 0 (Or.inl hh)

theorem header_once_then_rows_witness :
    (⟨true, false, false, false, false⟩ : Flags).json = false ∧
    (⟨true, false, false, false, false⟩ : Flags).quiet = false ∧
    (((⟨true, false, false, false, false⟩ : Flags).noheading = false →
      ∀ (r : jsonContainer) (rs : List jsonContainer) (st : State),
      (emit ⟨true, false, false, false, false⟩ 0 (r :: rs) st).stdout =
        st.stdout ++ (headerLine ⟨true, false, false, false, false⟩ ++
          String.join ((r :: rs).map (rowLine ⟨true, false, false, false, false⟩)))) ∧
    ((⟨true, false, false, false, false⟩ : Flags).noheading = true →
      ∀ (rs : List jsonContainer) (st : State),
      (emit ⟨true, false, false, false, false⟩ 0 rs st).stdout =
        st.stdout ++ String.join (rs.map (rowLine ⟨true, false, false, false, false⟩))) ∧
    ((⟨true, false, false, false, false⟩ : Flags).noheading = false →
      (containersCmd scenarioEnv ⟨true, false, false, false, false⟩).st.listed ≠ [] →
      (containersCmd scenarioEnv ⟨true, false, false, false, false⟩).st.stdout =
        headerLine ⟨true, false, false, false, false⟩ ++
          String.join ((containersCmd scenarioEnv ⟨true, false, false, false, false⟩).st.listed.map
            (rowLine ⟨true, false, false, false, false⟩))) ∧
    ((⟨true, false, false, false, false⟩ : Flags).noheading = true →
      (containersCmd scenarioEnv ⟨true, false, false, false, false⟩).st.stdout =
        String.join ((containersCmd scenarioEnv ⟨true, false, false, false, false⟩).st.listed.map
          (rowLine ⟨true, false, false, false, false⟩)))) :=
  ⟨rfl, rfl, header_once_then_rows scenarioEnv ⟨true, false, false, false, false⟩ rfl rfl⟩

/-- C12: in truncated text mode (`notruncate=false`, `quiet=false`) the row that
`list` writes, after the header if one is due, is: the container ID cut to its
first 12 characters and padded with spaces to exactly 12, two spaces, the
builder field of 8 characters (`   *` and four spaces for a builder-managed
record, 8 spaces otherwise), one space, the image ID cut and padded to exactly
12 characters, one space, the image name padded with spaces to at least 32
characters and never cut, one space, the container name, a newline. -/
theorem truncated_row (fl : Flags) (hj : fl.json = false) (hq : fl.quiet = false)
    (ht : fl.notruncate = false) :
    (∀ (n : Nat) (containerID imageID image container : String) (isBuilder : Bool) (st : State),
      (list fl n containerID imageID image container isBuilder st).stdout =
        st.stdout ++ ((if n = 0 ∧ fl.noheading = false then headerLine fl else "") ++
          (padClip 12 12 containerID ++ "  " ++
            (if isBuilder then "   *    " else "        ") ++ " " ++
            padClip 12 12 imageID ++ " " ++ padRight 32 image ++ " " ++ container ++ "\n"))) ∧
    (∀ s : String,
      (padClip 12 12 s).data = s.data.take 12 ++ List.replicate (12 - s.length) ' ' ∧
      (padClip 12 12 s).length = 12) ∧
    (∀ s : String,
      (padRight 32 s).data = s.data ++ List.replicate (32 - s.length) ' ' ∧
      32 ≤ (padRight 32 s).length) := by
  refine ⟨fun n cid iid image cname b st => ?_, fun s => ⟨padClip_data s, padClip_length s⟩,
    fun s => ⟨padRight_data 32 s, by rw [padRight_length]; omega⟩⟩
  rw [list_stdout fl n cid iid image cname b st hj]
  have hb1 : padRight 8 "   *" = "   *    " := by decide
  have hb2 : padRight 8 "" = "        " := by decide
  cases b <;> simp [rowLine, hq, ht, fmtRowTrunc, hb1, hb2]

theorem truncated_row_witness :
    (⟨false, false, false, false, false⟩ : Flags).json = false ∧
    (⟨false, false, false, false, false⟩ : Flags).quiet = false ∧
    (⟨false, false, false, false, false⟩ : Flags).notruncate = false ∧
    ((∀ (n : Nat) (containerID imageID image container : String) (isBuilder : Bool) (st : State),
      (list ⟨false, false, false, false, false⟩ n containerID imageID image container isBuilder
          st).stdout =
        st.stdout ++ ((if n = 0 ∧ (⟨false, false, false, false, false⟩ : Flags).noheading = false
            then headerLine ⟨false, false, false, false, false⟩ else "") ++
          (padClip 12 12 containerID ++ "  " ++
            (if isBuilder then "   *    " else "        ") ++ " " ++
            padClip 12 12 imageID ++ " " ++ padRight 32 image ++ " " ++ container ++ "\n"))) ∧
    (∀ s : String,
      (padClip 12 12 s).data = s.data.take 12 ++ List.replicate (12 - s.length) ' ' ∧
      (padClip 12 12 s).length = 12) ∧
    (∀ s : String,
      (padRight 32 s).data = s.data ++ List.replicate (32 - s.length) ' ' ∧
      32 ≤ (padRight 32 s).length)) :=
  ⟨rfl, rfl, rfl, truncated_row ⟨false, false, false, false, false⟩ rfl rfl rfl⟩

/-- C13: in non-truncated text mode (`notruncate=true`, `quiet=false`) the row
that `list` writes, after the header if one is due, holds the complete
container ID and the complete image ID, each padded with spaces to at least 64
characters and never cut, and otherwise the same builder field, image-name
field and container name as in truncated mode, with one space between
fields. -/
theorem wide_row (fl : Flags) (hj : fl.json = false) (hq : fl.quiet = false)
    (ht : fl.notruncate = true) :
    (∀ (n : Nat) (containerID imageID image container : String) (isBuilder : Bool) (st : State),
      (list fl n containerID imageID image container isBuilder st).stdout =
        st.stdout ++ ((if n = 0 ∧ fl.noheading = false then headerLine fl else "") ++
          (padRight 64 containerID ++ " " ++
            (if isBuilder then "   *    " else "        ") ++ " " ++
            padRight 64 imageID ++ " " ++ padRight 32 image ++ " " ++ container ++ "\n"))) ∧
    (∀ s : String,
      (padRight 64 s).data = s.data ++ List.replicate (64 - s.length) ' ' ∧
      64 ≤ (padRight 64 s).length) ∧
    (∀ s : String,
      (padRight 32 s).data = s.data ++ List.replicate (32 - s.length) ' ' ∧
      32 ≤ (padRight 32 s).length) := by
  refine ⟨fun n cid iid image cname b st => ?_,
    fun s => ⟨padRight_data 64 s, by rw [padRight_length]; omega⟩,
    fun s => ⟨padRight_data 32 s, by rw [padRight_length]; omega⟩⟩
  rw [list_stdout fl n cid iid image cname b st hj]
  have hb1 : padRight 8 "   *" = "   *    " := by decide
  have hb2 : padRight 8 "" = "        " := by decide
  cases b <;> simp [rowLine, hq, ht, fmtWide, hb1, hb2]

theorem wide_row_witness :
    (⟨false, false, false, true, false⟩ : Flags).json = false ∧
    (⟨false, false, false, true, false⟩ : Flags).quiet = false ∧
    (⟨false, false, false, true, false⟩ : Flags).notruncate = true ∧
    ((∀ (n : Nat) (containerID imageID image container : String) (isBuilder : Bool) (st : State),
      (list ⟨false, false, false, true, false⟩ n containerID imageID image container isBuilder
          st).stdout =
        st.stdout ++ ((if n = 0 ∧ (⟨false, false, false, true, false⟩ : Flags).noheading = false
            then headerLine ⟨false, false, false, true, false⟩ else "") ++
          (padRight 64 containerID ++ " " ++
            (if isBuilder then "   *    " else "        ") ++ " " ++
            padRight 64 imageID ++ " " ++ padRight 32 image ++ " " ++ container ++ "\n"))) ∧
    (∀ s : String,
      (padRight 64 s).data = s.data ++ List.replicate (64 - s.length) ' ' ∧
      64 ≤ (padRight 64 s).length) ∧
    (∀ s : String,
      (padRight 32 s).data = s.data ++ List.replicate (32 - s.length) ' ' ∧
      32 ≤ (padRight 32 s).length)) :=
  ⟨rfl, rfl, rfl, wide_row ⟨false, false, false, true, false⟩ rfl rfl rfl⟩

/-- C14: with `json=true`, a run whose inventories load succeeds, and when no
record was handed to `list` (in particular when the inventory of the chosen
mode is empty: empty builder and storage inventories with `all=true`) standard
output is exactly `[]` followed by the newline of `Printf`: it decodes to the
empty JSON array, not `null`. -/
theorem empty_json_document (env : Env) (fl : Flags) (store : Store) (builders : List Builder)
    (containers : List Container) (hj : fl.json = true)
    (hv : env.validateFlags fl = none) (hs : env.getStore fl = .ok store)
    (hb : env.openBuilders store = .ok builders)
    (hc : fl.all = true → store.Containers = .ok containers) :
    (containersCmd env fl).err = none ∧
    ((containersCmd env fl).st.listed = [] →
      (containersCmd env fl).st.stdout = "[]\n" ∧
      decode (containersCmd env fl).st.stdout = some (JSON.arr [])) ∧
    ((fl.all = false → builders = []) → (fl.all = true → containers = []) →
      (containersCmd env fl).st.listed = []) := by
  rw [containersCmd_ok env fl store builders containers hv hs hb hc, finish_emit]
  refine ⟨rfl, fun hl => ?_, fun h1 h2 => ?_⟩
  · have hl2 : expectedRecords env store fl builders containers = [] := hl
    simp only [output, hj, if_true, hl2]
    exact ⟨rfl, decode_MarshalIndent []⟩
  · show expectedRecords env store fl builders containers = []
    unfold expectedRecords
    cases hall : fl.all
    · simp [h1 hall]
    · simp [h2 hall]

theorem empty_json_document_witness :
    (⟨true, true, false, false, false⟩ : Flags).json = true ∧
    emptyEnv.validateFlags ⟨true, true, false, false, false⟩ = none ∧
    emptyEnv.getStore ⟨true, true, false, false, false⟩ = .ok emptyStore ∧
    emptyEnv.openBuilders emptyStore = .ok [] ∧
    ((⟨true, true, false, false, false⟩ : Flags).all = true → emptyStore.Containers = .ok []) ∧
    ((containersCmd emptyEnv ⟨true, true, false, false, false⟩).err = none ∧
    ((containersCmd emptyEnv ⟨true, true, false, false, false⟩).st.listed = [] →
      (containersCmd emptyEnv ⟨true, true, false, false, false⟩).st.stdout = "[]\n" ∧
      decode (containersCmd emptyEnv ⟨true, true, false, false, false⟩).st.stdout =
        some (JSON.arr [])) ∧
    (((⟨true, true, false, false, false⟩ : Flags).all = false → ([] : List Builder) = []) →
      ((⟨true, true, false, false, false⟩ : Flags).all = true → ([] : List Container) = []) →
      (containersCmd emptyEnv ⟨true, true, false, false, false⟩).st.listed = [])) :=
  ⟨rfl, rfl, rfl, rfl, fun _ => rfl,
    empty_json_document emptyEnv ⟨true, true, false, false, false⟩ emptyStore [] [] rfl rfl rfl
      rfl (fun _ => rfl)⟩

/-- C15: the cache is transparent.  With `store.Image` a function of the image
ID, the image name of every record handed to `list` is the uncached resolution
`resolveName` of its image ID, and more generally `imageNameForID` returns
`resolveName` of its argument whatever image IDs were resolved before it in the
same run. -/
theorem cache_is_transparent (env : Env) (fl : Flags) (store : Store)
    (hs : env.getStore fl = .ok store) :
    (∀ (i : Nat) (h : i < (containersCmd env fl).st.listed.length),
      ((containersCmd env fl).st.listed.get ⟨i, h⟩).ImageName =
        resolveName env store ((containersCmd env fl).st.listed.get ⟨i, h⟩).ImageID) ∧
    (∀ (ids : List String) (id : String),
      (imageNameForID env store id (resolveAll env store ids State.init)).1 =
        resolveName env store id) := by
  constructor
  · have hall : ∀ r ∈ (containersCmd env fl).st.listed,
        r.ImageName = resolveName env store r.ImageID := by
      rcases containersCmd_cases_records env fl with ⟨e2, h2⟩ | ⟨store2, bs, cs, hs2, _, _, h2⟩
      · rw [h2]
        intro r hr
        simp [State.init] at hr
      · have hst : store2 = store := by
          rw [hs] at hs2
          injection hs2 with h
          exact h.symm
        subst hst
        rw [h2, finish_emit]
        exact fun r hr => expectedRecords_resolved env store2 fl bs cs r hr
    intro i h
    exact hall _ (List.get_mem _ _ _)
  · intro ids id
    exact imageNameForID_fst env store id _
      (resolveAll_cacheOK env store ids State.init (cacheOK_nil store))

theorem cache_is_transparent_witness :
    scenarioEnv.getStore ⟨true, false, false, false, false⟩ = .ok scenarioStore ∧
    ((∀ (i : Nat)
        (h : i < (containersCmd scenarioEnv ⟨true, false, false, false, false⟩).st.listed.length),
      ((containersCmd scenarioEnv ⟨true, false, false, false, false⟩).st.listed.get
          ⟨i, h⟩).ImageName =
        resolveName scenarioEnv scenarioStore
          ((containersCmd scenarioEnv ⟨true, false, false, false, false⟩).st.listed.get
            ⟨i, h⟩).ImageID) ∧
    (∀ (ids : List String) (id : String),
      (imageNameForID scenarioEnv scenarioStore id
          (resolveAll scenarioEnv scenarioStore ids State.init)).1 =
        resolveName scenarioEnv scenarioStore id)) :=
  ⟨rfl, cache_is_transparent scenarioEnv ⟨true, false, false, false, false⟩ scenarioStore rfl⟩

/-- C16: the two renderers agree on the record stream.  For the same input and
the same `all`, a quiet text run and a JSON run return the same error; when
they succeed, the lines of the quiet run are, in order, the `id` members of the
objects of the decoded JSON document, each followed by a newline; when they
fail, neither writes anything. -/
theorem quiet_lines_are_json_ids (env : Env) (ft fj : Flags) (store : Store)
    (hjt : ft.json = false) (hqt : ft.quiet = true) (hjj : fj.json = true)
    (hall : ft.all = fj.all)
    (hvt : env.validateFlags ft = none) (hvj : env.validateFlags fj = none)
    (hst : env.getStore ft = .ok store) (hsj : env.getStore fj = .ok store) :
    (containersCmd env ft).err = (containersCmd env fj).err ∧
    ((containersCmd env fj).err = none →
      ∃ doc, decode (containersCmd env fj).st.stdout = some doc ∧
        (containersCmd env ft).st.stdout =
          String.join ((idFields doc).map (fun id => id ++ "\n"))) ∧
    ((containersCmd env fj).err ≠ none →
      (containersCmd env ft).st.stdout = "" ∧ (containersCmd env fj).st.stdout = "") := by
  cases hb : env.openBuilders store with
  | error e =>
    have h1 : containersCmd env ft =
        { st := State.init, err := some (Wrapf e "error reading build containers") } := by
      simp only [containersCmd, hvt, hst, hb]
    have h2 : containersCmd env fj =
        { st := State.init, err := some (Wrapf e "error reading build containers") } := by
      simp only [containersCmd, hvj, hsj, hb]
    rw [h1, h2]
    exact ⟨rfl, fun h => by simp at h, fun _ => ⟨rfl, rfl⟩⟩
  | ok builders =>
    by_cases hfail : ft.all = true ∧ ∃ e, store.Containers = .error e
    · obtain ⟨ha, e, hc⟩ := hfail
      have h1 : containersCmd env ft =
          { st := State.init, err := some (Wrapf e "error reading list of all containers") } := by
        simp only [containersCmd, hvt, hst, hb, ha, hc, Bool.not_true, Bool.false_eq_true,
          if_false]
      have h2 : containersCmd env fj =
          { st := State.init, err := some (Wrapf e "error reading list of all containers") } := by
        simp only [containersCmd, hvj, hsj, hb, ← hall, ha, hc, Bool.not_true,
          Bool.false_eq_true, if_false]
      rw [h1, h2]
      exact ⟨rfl, fun h => by simp at h, fun _ => ⟨rfl, rfl⟩⟩
    · have hex : ∃ cs, ft.all = true → store.Containers = .ok cs := by
        cases hc : store.Containers with
        | ok cs => exact ⟨cs, fun _ => rfl⟩
        | error e =>
          refine ⟨[], fun ha => ?_⟩
          exact absurd ⟨ha, e, hc⟩ hfail
      obtain ⟨cs, hc⟩ := hex
      have hrec : expectedRecords env store fj builders cs =
          expectedRecords env store ft builders cs := by
        unfold expectedRecords
        rw [hall]
      rw [containersCmd_ok env ft store builders cs hvt hst hb hc,
        containersCmd_ok env fj store builders cs hvj hsj hb (by rw [← hall]; exact hc),
        finish_emit, finish_emit, hrec]
      refine ⟨rfl, fun _ => ?_, fun h => absurd rfl h⟩
      refine ⟨JSON.arr ((expectedRecords env store ft builders cs).map jsonContainer.toJSON), ?_, ?_⟩
      · simp only [output, hjj, if_true]
        exact decode_MarshalIndent _
      · rw [idFields_toJSON, List.map_map]
        simp only [output, hjt, Bool.false_eq_true, if_false]
        exact textOut_quiet ft hjt hqt _ 0

theorem quiet_lines_are_json_ids_witness :
    (⟨true, false, false, false, true⟩ : Flags).json = false ∧
    (⟨true, false, false, false, true⟩ : Flags).quiet = true ∧
    (⟨true, true, false, false, false⟩ : Flags).json = true ∧
    (⟨true, false, false, false, true⟩ : Flags).all = (⟨true, true, false, false, false⟩ : Flags).all ∧
    scenarioEnv.validateFlags ⟨true, false, false, false, true⟩ = none ∧
    scenarioEnv.validateFlags ⟨true, true, false, false, false⟩ = none ∧
    scenarioEnv.getStore ⟨true, false, false, false, true⟩ = .ok scenarioStore ∧
    scenarioEnv.getStore ⟨true, true, false, false, false⟩ = .ok scenarioStore ∧
    ((containersCmd scenarioEnv ⟨true, false, false, false, true⟩).err =
      (containersCmd scenarioEnv ⟨true, true, false, false, false⟩).err ∧
    ((containersCmd scenarioEnv ⟨true, true, false, false, false⟩).err = none →
      ∃ doc, decode (containersCmd scenarioEnv ⟨true, true, false, false, false⟩).st.stdout =
          some doc ∧
        (containersCmd scenarioEnv ⟨true, false, false, false, true⟩).st.stdout =
          String.join ((idFields doc).map (fun id => id ++ "\n"))) ∧
    ((containersCmd scenarioEnv ⟨true, true, false, false, false⟩).err ≠ none →
      (containersCmd scenarioEnv ⟨true, false, false, false, true⟩).st.stdout = "" ∧
      (containersCmd scenarioEnv ⟨true, true, false, false, false⟩).st.stdout = "")) :=
  ⟨rfl, rfl, rfl, rfl, rfl, rfl, rfl, rfl,
    quiet_lines_are_json_ids scenarioEnv ⟨true, false, false, false, true⟩
      ⟨true, true, false, false, false⟩ scenarioStore rfl rfl rfl rfl rfl rfl rfl rfl⟩

/-- C17: in text mode a run over an empty record sequence (empty builder
inventory with `all=false`, empty storage inventory with `all=true`) succeeds
and writes nothing at all, whatever `quiet`, `noheading` and `notruncate` are:
the header is written only inside the call of `list` for the record of index
0, and there is no such call. -/
theorem empty_text_output (env : Env) (fl : Flags) (store : Store) (builders : List Builder)
    (containers : List Container) (hj : fl.json = false)
    (hv : env.validateFlags fl = none) (hs : env.getStore fl = .ok store)
    (hb : env.openBuilders store = .ok builders)
    (hc : fl.all = true → store.Containers = .ok containers)
    (he1 : fl.all = false → builders = []) (he2 : fl.all = true → containers = []) :
    (containersCmd env fl).err = none ∧
    (containersCmd env fl).st.listed = [] ∧
    (containersCmd env fl).st.stdout = "" := by
  have hrec : expectedRecords env store fl builders containers = [] := by
    unfold expectedRecords
    cases hall : fl.all
    · simp [he1 hall]
    · simp [he2 hall]
  rw [containersCmd_ok env fl store builders containers hv hs hb hc, finish_emit, hrec]
  refine ⟨rfl, rfl, ?_⟩
  simp [output, hj, textOut]

theorem empty_text_output_witness :
    (⟨true, false, false, false, false⟩ : Flags).json = false ∧
    emptyEnv.validateFlags ⟨true, false, false, false, false⟩ = none ∧
    emptyEnv.getStore ⟨true, false, false, false, false⟩ = .ok emptyStore ∧
    emptyEnv.openBuilders emptyStore = .ok [] ∧
    ((⟨true, false, false, false, false⟩ : Flags).all = true → emptyStore.Containers = .ok []) ∧
    ((⟨true, false, false, false, false⟩ : Flags).all = false → ([] : List Builder) = []) ∧
    ((⟨true, false, false, false, false⟩ : Flags).all = true → ([] : List Container) = []) ∧
    ((containersCmd emptyEnv ⟨true, false, false, false, false⟩).err = none ∧
    (containersCmd emptyEnv ⟨true, false, false, false, false⟩).st.listed = [] ∧
    (containersCmd emptyEnv ⟨true, false, false, false, false⟩).st.stdout = "") :=
  ⟨rfl, rfl, rfl, rfl, fun _ => rfl, fun _ => rfl, fun _ => rfl,
    empty_text_output emptyEnv ⟨true, false, false, false, false⟩ emptyStore [] [] rfl rfl rfl
      rfl (fun _ => rfl) (fun _ => rfl) (fun _ => rfl)⟩

/-- C18: header and rows are column-aligned.  In truncated mode, for every
record whose image name has at most 32 characters, the five columns of the row
and of the header start at the same offsets 0, 14, 23, 36 and 69: the 12
characters from 0 are the (cut and padded) container ID under `CONTAINER ID`,
the 8 from 14 the builder field under `BUILDER`, the 12 from 23 the image ID
under `IMAGE ID`, the 32 from 36 the padded image name under `IMAGE NAME`, and
from 69 on comes the container name under `CONTAINER NAME`.  In non-truncated
mode the same holds with offsets 0, 65, 74, 139 and 172 and ID fields of 64
characters, for every record whose container ID and image ID have at most 64
characters and whose image name has at most 32. -/
theorem columns_aligned (fl : Flags) (hq : fl.quiet = false) (r : jsonContainer)
    (hname : r.ImageName.length ≤ 32) :
    (fl.notruncate = false →
      (field (headerLine fl) 0 12 = padRight 12 "CONTAINER ID" ∧
        field (rowLine fl r) 0 12 = padClip 12 12 r.ID) ∧
      (field (headerLine fl) 14 8 = padRight 8 "BUILDER" ∧
        field (rowLine fl r) 14 8 = padRight 8 (if r.Builder then "   *" else "")) ∧
      (field (headerLine fl) 23 12 = padRight 12 "IMAGE ID" ∧
        field (rowLine fl r) 23 12 = padClip 12 12 r.ImageID) ∧
      (field (headerLine fl) 36 32 = padRight 32 "IMAGE NAME" ∧
        field (rowLine fl r) 36 32 = padRight 32 r.ImageName) ∧
      (fieldFrom (headerLine fl) 69 = "CONTAINER NAME\n" ∧
        fieldFrom (rowLine fl r) 69 = r.ContainerName ++ "\n")) ∧
    (fl.notruncate = true → r.ID.length ≤ 64 → r.ImageID.length ≤ 64 →
      (field (headerLine fl) 0 64 = padRight 64 "CONTAINER ID" ∧
        field (rowLine fl r) 0 64 = padRight 64 r.ID) ∧
      (field (headerLine fl) 65 8 = padRight 8 "BUILDER" ∧
        field (rowLine fl r) 65 8 = padRight 8 (if r.Builder then "   *" else "")) ∧
      (field (headerLine fl) 74 64 = padRight 64 "IMAGE ID" ∧
        field (rowLine fl r) 74 64 = padRight 64 r.ImageID) ∧
      (field (headerLine fl) 139 32 = padRight 32 "IMAGE NAME" ∧
        field (rowLine fl r) 139 32 = padRight 32 r.ImageName) ∧
      (fieldFrom (headerLine fl) 172 = "CONTAINER NAME\n" ∧
        fieldFrom (rowLine fl r) 172 = r.ContainerName ++ "\n")) := by
  have hb := builderValue_data_length r.Builder
  have hn := padRight_data_length 32 r.ImageName hname
  constructor
  · intro ht
    have hhead : headerLine fl =
        fmtHeaderTrunc "CONTAINER ID" "BUILDER" "IMAGE ID" "IMAGE NAME" "CONTAINER NAME" := by
      simp [headerLine, ht]
    have hrow : rowLine fl r =
        fmtRowTrunc r.ID (if r.Builder then "   *" else "") r.ImageID r.ImageName
          r.ContainerName := by
      simp [rowLine, hq, ht]
    have h1 := padClip_data_length r.ID
    have h3 := padClip_data_length r.ImageID
    obtain ⟨f1, f2, f3, f4, f5⟩ := five_fields _ _ _ _ _ _ _ _ _ _
      (fmtRowTrunc_data r.ID (if r.Builder then "   *" else "") r.ImageID r.ImageName
        r.ContainerName)
    simp only [h1, hb, h3, hn, List.length_cons, List.length_nil] at f1 f2 f3 f4 f5
    rw [hhead, hrow]
    exact ⟨⟨by decide, f1⟩, ⟨by decide, f2⟩, ⟨by decide, f3⟩, ⟨by decide, f4⟩, ⟨by decide, f5⟩⟩
  · intro ht hid himg
    have hhead : headerLine fl =
        fmtWide "CONTAINER ID" "BUILDER" "IMAGE ID" "IMAGE NAME" "CONTAINER NAME" := by
      simp [headerLine, ht]
    have hrow : rowLine fl r =
        fmtWide r.ID (if r.Builder then "   *" else "") r.ImageID r.ImageName
          r.ContainerName := by
      simp [rowLine, hq, ht]
    have h1 := padRight_data_length 64 r.ID hid
    have h3 := padRight_data_length 64 r.ImageID himg
    obtain ⟨f1, f2, f3, f4, f5⟩ := five_fields _ _ _ _ _ _ _ _ _ _
      (fmtWide_data r.ID (if r.Builder then "   *" else "") r.ImageID r.ImageName
        r.ContainerName)
    simp only [h1, hb, h3, hn, List.length_cons, List.length_nil] at f1 f2 f3 f4 f5
    rw [hhead, hrow]
    exact ⟨⟨by decide, f1⟩, ⟨by decide, f2⟩, ⟨by decide, f3⟩, ⟨by decide, f4⟩, ⟨by decide, f5⟩⟩

theorem columns_aligned_witness :
    (⟨false, false, false, false, false⟩ : Flags).quiet = false ∧
    ("alpine:latest" : String).length ≤ 32 ∧
    (((⟨false, false, false, false, false⟩ : Flags).notruncate = false →
      (field (headerLine ⟨false, false, false, false, false⟩) 0 12 = padRight 12 "CONTAINER ID" ∧
        field (rowLine ⟨false, false, false, false, false⟩ (jsonContainer.mk "b1" true "i1" "alpine:latest" "work1")) 0 12 = padClip 12 12 "b1") ∧
      (field (headerLine ⟨false, false, false, false, false⟩) 14 8 = padRight 8 "BUILDER" ∧
        field (rowLine ⟨false, false, false, false, false⟩ (jsonContainer.mk "b1" true "i1" "alpine:latest" "work1")) 14 8 = padRight 8 (if true then "   *" else "")) ∧
      (field (headerLine ⟨false, false, false, false, false⟩) 23 12 = padRight 12 "IMAGE ID" ∧
        field (rowLine ⟨false, false, false, false, false⟩ (jsonContainer.mk "b1" true "i1" "alpine:latest" "work1")) 23 12 = padClip 12 12 "i1") ∧
      (field (headerLine ⟨false, false, false, false, false⟩) 36 32 = padRight 32 "IMAGE NAME" ∧
        field (rowLine ⟨false, false, false, false, false⟩ (jsonContainer.mk "b1" true "i1" "alpine:latest" "work1")) 36 32 = padRight 32 "alpine:latest") ∧
      (fieldFrom (headerLine ⟨false, false, false, false, false⟩) 69 = "CONTAINER NAME\n" ∧
        fieldFrom (rowLine ⟨false, false, false, false, false⟩ (jsonContainer.mk "b1" true "i1" "alpine:latest" "work1")) 69 = "work1" ++ "\n")) ∧
    ((⟨false, false, false, false, false⟩ : Flags).notruncate = true → "b1".length ≤ 64 → "i1".length ≤ 64 →
      (field (headerLine ⟨false, false, false, false, false⟩) 0 64 = padRight 64 "CONTAINER ID" ∧
        field (rowLine ⟨false, false, false, false, false⟩ (jsonContainer.mk "b1" true "i1" "alpine:latest" "work1")) 0 64 = padRight 64 "b1") ∧
      (field (headerLine ⟨false, false, false, false, false⟩) 65 8 = padRight 8 "BUILDER" ∧
        field (rowLine ⟨false, false, false, false, false⟩ (jsonContainer.mk "b1" true "i1" "alpine:latest" "work1")) 65 8 = padRight 8 (if true then "   *" else "")) ∧
      (field (headerLine ⟨false, false, false, false, false⟩) 74 64 = padRight 64 "IMAGE ID" ∧
        field (rowLine ⟨false, false, false, false, false⟩ (jsonContainer.mk "b1" true "i1" "alpine:latest" "work1")) 74 64 = padRight 64 "i1") ∧
      (field (headerLine ⟨false, false, false, false, false⟩) 139 32 = padRight 32 "IMAGE NAME" ∧
        field (rowLine ⟨false, false, false, false, false⟩ (jsonContainer.mk "b1" true "i1" "alpine:latest" "work1")) 139 32 = padRight 32 "alpine:latest") ∧
      (fieldFrom (headerLine ⟨false, false, false, false, false⟩) 172 = "CONTAINER NAME\n" ∧
        fieldFrom (rowLine ⟨false, false, false, false, false⟩ (jsonContainer.mk "b1" true "i1" "alpine:latest" "work1")) 172 = "work1" ++ "\n"))) :=
  ⟨rfl, by decide,
    columns_aligned ⟨false, false, false, false, false⟩ rfl (jsonContainer.mk "b1" true "i1" "alpine:latest" "work1") (by decide)⟩

end Buildah
